import Mathlib

/-!
Verification development for the VibeTune multi-bot Telegram server
(`telegram_bot.py`).  The Python program is shallowly embedded: JSON values
become an inductive `Json` type, `json.loads`/`json.dumps` become
fuel-based executable functions, and each Python function relevant to the
claims is translated into a Lean definition of the same name.  Network
I/O (HTTP requests to the inference endpoint and to the tool endpoints)
and database reads are supplied as explicit environment inputs, since
their results are external to the program; everything the program itself
computes is modelled faithfully, including the places where Python
raises an exception (modelled with `Except`).
-/

set_option autoImplicit false

namespace TelegramBot

/-- A JSON value as produced by Python's `json.loads`.  Numbers are kept in
a scaled-decimal form `mantissa * 10 ^ exponent` so that the parser is
total and executable; claims never compare numbers parsed from distinct
literals.  Objects are ordered association lists, mirroring the insertion
order of Python dicts. -/
inductive Json where
  | null
  | bool (b : Bool)
  | num (mantissa : Int) (exponent : Int)
  | str (s : String)
  | arr (items : List Json)
  | obj (fields : List (String × Json))
deriving Repr

/-- Python truthiness of a JSON value (`bool(x)`): `None`, `False`, zero,
empty string, empty list and empty dict are falsy. -/
def Json.truthy : Json → Bool
  | .null => false
  | .bool b => b
  | .num m _ => m ≠ 0
  | .str s => s ≠ ""
  | .arr l => ¬ l.isEmpty
  | .obj l => ¬ l.isEmpty

/-- Lookup in an object's field list (`dict.__getitem__` / `dict.get`).
Python dicts cannot hold duplicate keys; objects built by the embedded
parser and by the embedded code use `objInsert`, which keeps keys unique,
so first-match lookup agrees with Python. -/
def objGet : List (String × Json) → String → Option Json
  | [], _ => none
  | (k', v) :: t, k => if k' = k then some v else objGet t k

/-- Python dict assignment `d[k] = v`: updates the value in place if the
key exists (keeping its position), otherwise appends. -/
def objInsert : List (String × Json) → String → Json → List (String × Json)
  | [], k, v => [(k, v)]
  | (k', v') :: t, k, v =>
      if k' = k then (k', v) :: t else (k', v') :: objInsert t k v

/-- Python `dict.get(k, default)` on a `Json` that is known to be an
object. -/
def Json.getD (j : Json) (k : String) (d : Json) : Json :=
  match j with
  | .obj fs => (objGet fs k).getD d
  | _ => d

/-- Characters stripped by Python `str.strip()` (the ASCII whitespace
subset, which covers every input occurring in this development). -/
def isPySpace (c : Char) : Bool :=
  c = ' ' || c = '\t' || c = '\n' || c = '\r' || c = '\x0b' || c = '\x0c'

/-- Python `str.strip()` on a character list. -/
def pyStripList (l : List Char) : List Char :=
  ((l.dropWhile isPySpace).reverse.dropWhile isPySpace).reverse

/-- Python `str.strip()`. -/
def pyStrip (s : String) : String :=
  String.mk (pyStripList s.data)

/-- JSON insignificant whitespace accepted between tokens by
`json.loads`. -/
def isJsonWs (c : Char) : Bool :=
  c = ' ' || c = '\t' || c = '\n' || c = '\r'

/-- Skip JSON whitespace. -/
def skipWs (l : List Char) : List Char :=
  l.dropWhile isJsonWs

/-- Decimal digit test. -/
def isDigitChar (c : Char) : Bool :=
  '0' ≤ c && c ≤ '9'

/-- Hexadecimal digit value, if any. -/
def hexVal (c : Char) : Option Nat :=
  let n := c.toNat
  if 48 ≤ n ∧ n ≤ 57 then some (n - 48)
  else if 97 ≤ n ∧ n ≤ 102 then some (n - 87)
  else if 65 ≤ n ∧ n ≤ 70 then some (n - 55)
  else none

/-- Digits to a natural number. -/
def digitsToNat (l : List Char) : Nat :=
  l.foldl (fun acc c => acc * 10 + (c.toNat - '0'.toNat)) 0

/-- Body of a JSON string literal, after the opening quote: returns the
decoded characters and the remaining input (fuel-based for kernel
reducibility).  Mirrors `json.loads` strict mode: unescaped control
characters are rejected. -/
def parseStringBodyF : Nat → List Char → Option (List Char × List Char)
  | 0, _ => none
  | Nat.succ _, [] => none
  | Nat.succ n, c :: rest =>
    if c = '"' then some ([], rest)
    else if c = '\\' then
      match rest with
      | [] => none
      | e :: rest2 =>
        if e = 'u' then
          match rest2 with
          | a :: b :: c2 :: d :: rest3 =>
            match hexVal a, hexVal b, hexVal c2, hexVal d with
            | some ha, some hb, some hc, some hd =>
              match parseStringBodyF n rest3 with
              | some (tail, rem) =>
                  some (Char.ofNat (((ha * 16 + hb) * 16 + hc) * 16 + hd) :: tail, rem)
              | none => none
            | _, _, _, _ => none
          | _ => none
        else
          let dec : Option Char :=
            if e = '"' then some '"'
            else if e = '\\' then some '\\'
            else if e = '/' then some '/'
            else if e = 'b' then some '\x08'
            else if e = 'f' then some '\x0c'
            else if e = 'n' then some '\n'
            else if e = 'r' then some '\r'
            else if e = 't' then some '\t'
            else none
          match dec with
          | some d =>
            match parseStringBodyF n rest2 with
            | some (tail, rem) => some (d :: tail, rem)
            | none => none
          | none => none
    else if c.toNat < 0x20 then none
    else
      match parseStringBodyF n rest with
      | some (tail, rem) => some (c :: tail, rem)
      | none => none

/-- Body of a JSON string literal, after the opening quote. -/
def parseStringBody (l : List Char) : Option (List Char × List Char) :=
  parseStringBodyF (l.length + 1) l

/-- A JSON number literal: optional minus sign, integer part (no leading
zeros), optional fraction, optional exponent.  Returns the scaled-decimal
value and the remaining input. -/
def parseNumber (l : List Char) : Option (Json × List Char) :=
  let (neg, l1) :=
    match l with
    | '-' :: t => (true, t)
    | _ => (false, l)
  let intDigits := l1.takeWhile isDigitChar
  let l2 := l1.dropWhile isDigitChar
  if intDigits.isEmpty then none
  else if intDigits.head? = some '0' && intDigits.length > 1 then none
  else
    let (fracDigits, l3) :=
      match l2 with
      | '.' :: t =>
          let fd := t.takeWhile isDigitChar
          (fd, t.dropWhile isDigitChar)
      | _ => ([], l2)
    match l2 with
    | '.' :: _ =>
        if fracDigits.isEmpty then none else parseNumberExp neg intDigits fracDigits l3
    | _ => parseNumberExp neg intDigits fracDigits l3
where
  /-- Optional exponent part, then assembly of the scaled decimal. -/
  parseNumberExp (neg : Bool) (intDigits fracDigits : List Char) (l : List Char) :
      Option (Json × List Char) :=
    let mkNum (e : Int) (rest : List Char) : Option (Json × List Char) :=
      let mag : Int := Int.ofNat (digitsToNat (intDigits ++ fracDigits))
      let m : Int := if neg then -mag else mag
      some (Json.num m (e - Int.ofNat fracDigits.length), rest)
    match l with
    | c :: t =>
      if c = 'e' || c = 'E' then
        let (eneg, t1) :=
          match t with
          | '-' :: t' => (true, t')
          | '+' :: t' => (false, t')
          | _ => (false, t)
        let expDigits := t1.takeWhile isDigitChar
        let t2 := t1.dropWhile isDigitChar
        if expDigits.isEmpty then none
        else
          let e : Int := Int.ofNat (digitsToNat expDigits)
          mkNum (if eneg then -e else e) t2
      else mkNum 0 l
    | [] => mkNum 0 []

/-- Parser mode: parse one value, or the tail of an array (after `[`),
or the tail of an object (after `{`), with the already-parsed members
accumulated in order. -/
inductive PMode where
  | val
  | arrTail (acc : List Json)
  | objTail (acc : List (String × Json))

/-- Fuel-based recursive-descent JSON parser (model of the grammar
accepted by `json.loads`).  Structural recursion on the fuel keeps it
kernel-reducible.  Duplicate object keys keep the last value, as in
Python. -/
def parseStep : Nat → PMode → List Char → Option (Json × List Char)
  | 0, _, _ => none
  | Nat.succ n, .val, cs =>
    (match skipWs cs with
    | '{' :: rest => parseStep n (.objTail []) (skipWs rest)
    | '[' :: rest => parseStep n (.arrTail []) (skipWs rest)
    | '"' :: rest =>
      match parseStringBody rest with
      | some (chars, rem) => some (Json.str (String.mk chars), rem)
      | none => none
    | 't' :: 'r' :: 'u' :: 'e' :: rest => some (Json.bool true, rest)
    | 'f' :: 'a' :: 'l' :: 's' :: 'e' :: rest => some (Json.bool false, rest)
    | 'n' :: 'u' :: 'l' :: 'l' :: rest => some (Json.null, rest)
    | c :: rest =>
      if c = '-' || isDigitChar c then parseNumber (c :: rest) else none
    | [] => none)
  | Nat.succ n, .arrTail acc, cs =>
    (match cs with
    | ']' :: rest =>
        if acc.isEmpty then some (Json.arr [], rest) else none
    | _ =>
      match parseStep n .val cs with
      | some (v, rem) =>
        match skipWs rem with
        | ',' :: rest => parseStep n (.arrTail (acc ++ [v])) (skipWs rest)
        | ']' :: rest => some (Json.arr (acc ++ [v]), rest)
        | _ => none
      | none => none)
  | Nat.succ n, .objTail acc, cs =>
    (match cs with
    | '}' :: rest =>
        if acc.isEmpty then some (Json.obj [], rest) else none
    | '"' :: rest =>
      match parseStringBody rest with
      | some (kchars, rem) =>
        match skipWs rem with
        | ':' :: rest2 =>
          match parseStep n .val (skipWs rest2) with
          | some (v, rem2) =>
            let acc' := objInsert acc (String.mk kchars) v
            match skipWs rem2 with
            | ',' :: rest3 => parseStep n (.objTail acc') (skipWs rest3)
            | '}' :: rest3 => some (Json.obj acc', rest3)
            | _ => none
          | none => none
        | _ => none
      | none => none
    | _ => none)

/-- Parse one JSON value from a character list. -/
def parseVal (fuel : Nat) (cs : List Char) : Option (Json × List Char) :=
  parseStep fuel .val cs

/-- Model of Python `json.loads`: parse one JSON value and require only
whitespace after it. -/
def json_loads (s : String) : Option Json :=
  match parseVal (s.data.length + 1) s.data with
  | some (j, rest) => if (skipWs rest).isEmpty then some j else none
  | none => none

/-- Escape one character the way `json.dumps` does (default
`ensure_ascii=True`). -/
def dumpsChar (c : Char) : String :=
  if c = '"' then "\\\""
  else if c = '\\' then "\\\\"
  else if c = '\n' then "\\n"
  else if c = '\r' then "\\r"
  else if c = '\t' then "\\t"
  else if c = '\x08' then "\\b"
  else if c = '\x0c' then "\\f"
  else if c.toNat < 0x20 || c.toNat > 0x7e then
    let hx := Nat.toDigits 16 c.toNat
    let pad := List.replicate (4 - hx.length) '0'
    "\\u" ++ String.mk (pad ++ hx)
  else String.mk [c]

/-- A JSON string literal for `dumps`. -/
def dumpsStr (s : String) : String :=
  "\"" ++ String.join (s.data.map dumpsChar) ++ "\""

/-- Model of Python `json.dumps` with the default separators
`(", ", ": ")`.  Non-integer numbers are rendered in exponent form; no
claim inspects serialized number text. -/
def Json.dumps : Json → String
  | .null => "null"
  | .bool true => "true"
  | .bool false => "false"
  | .num m e => if e = 0 then toString m else toString m ++ "e" ++ toString e
  | .str s => dumpsStr s
  | .arr items =>
      "[" ++ ", ".intercalate (items.attach.map (fun x => Json.dumps x.1)) ++ "]"
  | .obj fields =>
      "\x7b" ++ ", ".intercalate (fields.attach.map
        (fun x => dumpsStr x.1.1 ++ ": " ++ Json.dumps x.1.2)) ++ "\x7d"
decreasing_by
  · have h := List.sizeOf_lt_of_mem x.2
    simp only [Json.arr.sizeOf_spec]
    omega
  · have h := List.sizeOf_lt_of_mem x.2
    have h2 : sizeOf x.1.2 < sizeOf x.1 := by
      obtain ⟨⟨k, v⟩, hx⟩ := x
      simp
    simp only [Json.obj.sizeOf_spec]
    omega

/-- Python `str(x)` rendering of a JSON value, used only in interpolated
error strings (`repr`-style for containers, as Python's `str` of a dict
would produce; exact text matters only for string payloads). -/
def Json.pyStr : Json → String
  | .str s => s
  | j => Json.dumps j

/-! ## Argument Normalizer (`normalize_tool_arguments`, lines 900-944) -/

/-- Python `str.startswith` (list-based so that it is kernel-reducible). -/
def strStarts (pat s : String) : Bool :=
  pat.data.isPrefixOf s.data

/-- Python `str.endswith`. -/
def strEnds (pat s : String) : Bool :=
  pat.data.reverse.isPrefixOf s.data.reverse

/-- The drop test `value is None or value == ""` used by the normalizer
(among JSON values only the string `""` compares equal to `""`). -/
def isDroppedVal (v : Json) : Bool :=
  match v with
  | .null => true
  | .str s => s = ""
  | _ => false

/-- Inner helper `try_parse_json` of `normalize_tool_arguments`
(lines 905-917): a string that, trimmed, looks like a JSON object or
array is parsed; on success the parsed structure replaces it, on failure
(or for non-strings) the value is returned unchanged. -/
def try_parse_json (value : Json) : Json :=
  match value with
  | .str s =>
    let trimmed := pyStrip s
    if (strStarts "\x7b" trimmed && strEnds "\x7d" trimmed) ||
       (strStarts "[" trimmed && strEnds "]" trimmed) then
      match json_loads trimmed with
      | some parsed => parsed
      | none => value
    else value
  | _ => value

/-- The nested-object member transform of the normalizer (line 930):
`{k: try_parse_json(v) for k, v in parsed_value.items() if v is not None
and v != ""}`. -/
def normField (kv : String × Json) : Option (String × Json) :=
  if isDroppedVal kv.2 then none else some (kv.1, try_parse_json kv.2)

/-- The nested-array item transform of the normalizer (line 935). -/
def normItem (item : Json) : Option Json :=
  if isDroppedVal item then none else some (try_parse_json item)

/-- One top-level entry of the normalizer's output (the loop body at
lines 920-940), applied to an entry that survived the drop test. -/
def normalizeEntryVal (value : Json) : Json :=
  match try_parse_json value with
  | .obj d => Json.obj (d.filterMap normField)
  | .arr items => Json.arr (items.filterMap normItem)
  | parsed_value => parsed_value

/-- One iteration of the normalizer's top-level loop (lines 920-940):
drop `None`/`""` values, otherwise assign the transformed value into the
result dict. -/
def normStep (normalized : List (String × Json)) (kv : String × Json) :
    List (String × Json) :=
  if isDroppedVal kv.2 then normalized
  else objInsert normalized kv.1 (normalizeEntryVal kv.2)

/-- `normalize_tool_arguments` (lines 900-944): drops top-level entries
whose value is `None` or `""`, parses doubly-encoded JSON strings via
`try_parse_json`, and descends one level into objects and arrays.  The
result dict is built by Python assignment (`objInsert`). -/
def normalize_tool_arguments (tool_name : String) (args : List (String × Json)) :
    List (String × Json) :=
  let _ := tool_name
  args.foldl normStep []

example : normalize_tool_arguments "t" [("a", Json.str " ")] = [("a", Json.str " ")] := rfl

example : normalize_tool_arguments "t" [("a", Json.null), ("b", Json.str "")] = [] := rfl

example :
    normalize_tool_arguments "t" [("a", Json.str "\x7b\"b\": \"[1, 2]\"\x7d")] =
      [("a", Json.obj [("b", Json.arr [Json.num 1 0, Json.num 2 0])])] := rfl

example :
    json_loads "\x7b\"name\": \"create_delivery\", \"arguments\": \x7b\"sender\": \x7b\"name\": \"Kobi\"\x7d\x7d\x7d" =
      some (Json.obj [("name", Json.str "create_delivery"),
        ("arguments", Json.obj [("sender", Json.obj [("name", Json.str "Kobi")])])]) := rfl

example : json_loads "[1, -2.5, true, null, \"x\\n\"]" =
    some (Json.arr [Json.num 1 0, Json.num (-25) (-1), Json.bool true, Json.null,
      Json.str "x\n"]) := rfl

example : json_loads "\x7b\"a\": 1,\x7d" = none := rfl

/-! ### Association-list lemmas -/

/-- Keys of an association list, in order. -/
def keysOf (l : List (String × Json)) : List String :=
  l.map Prod.fst

theorem objInsert_mem : ∀ (l : List (String × Json)) (k : String) (v : Json)
    (kv : String × Json), kv ∈ objInsert l k v → kv ∈ l ∨ kv = (k, v) := by
  intro l k v
  induction l with
  | nil => intro kv h; simpa [objInsert] using h
  | cons hd t ih =>
    intro kv h
    obtain ⟨k', v'⟩ := hd
    by_cases hk : k' = k
    · subst hk
      simp only [objInsert, if_true, ite_true, eq_self_iff_true, List.mem_cons] at h
      rcases h with h | h
      · exact Or.inr h
      · exact Or.inl (List.mem_cons_of_mem _ h)
    · simp only [objInsert, if_neg hk, List.mem_cons] at h
      rcases h with h | h
      · exact Or.inl (by simp [h])
      · rcases ih kv h with h2 | h2
        · exact Or.inl (List.mem_cons_of_mem _ h2)
        · exact Or.inr h2

theorem objInsert_keys (l : List (String × Json)) (k : String) (v : Json) :
    keysOf (objInsert l k v) =
      if k ∈ keysOf l then keysOf l else keysOf l ++ [k] := by
  induction l with
  | nil => simp [objInsert, keysOf]
  | cons hd t ih =>
    obtain ⟨k', v'⟩ := hd
    by_cases hk : k' = k
    · subst hk
      simp [objInsert, keysOf]
    · simp only [objInsert, if_neg hk, keysOf, List.map_cons, List.mem_cons]
      have hk' : ¬ k = k' := fun h => hk h.symm
      simp only [keysOf] at ih
      rw [ih]
      by_cases hm : k ∈ t.map Prod.fst
      · simp [hm, hk']
      · simp [hm, hk']

theorem objInsert_keys_nodup {l : List (String × Json)} {k : String} {v : Json}
    (h : (keysOf l).Nodup) : (keysOf (objInsert l k v)).Nodup := by
  rw [objInsert_keys]
  by_cases hm : k ∈ keysOf l
  · rw [if_pos hm]; exact h
  · rw [if_neg hm, List.nodup_append]
    refine ⟨h, List.nodup_singleton _, ?_⟩
    intro a ha hb
    simp only [List.mem_singleton] at hb
    subst hb
    exact hm ha

/-! ### Shape of parser results -/

theorem parseStep_objTail_shape :
    ∀ (n : Nat) (acc : List (String × Json)) (cs : List Char) (j : Json)
      (r : List Char),
      parseStep n (.objTail acc) cs = some (j, r) → ∃ fs, j = Json.obj fs := by
  intro n
  induction n with
  | zero => intro acc cs j r h; simp [parseStep] at h
  | succ n ih =>
    intro acc cs j r h
    simp only [parseStep] at h
    repeat' split at h
    all_goals
      first
      | exact Option.noConfusion h
      | exact ih _ _ _ _ h
      | · simp only [Option.some.injEq, Prod.mk.injEq] at h
          exact ⟨_, h.1.symm⟩

theorem parseStep_arrTail_shape :
    ∀ (n : Nat) (acc : List Json) (cs : List Char) (j : Json) (r : List Char),
      parseStep n (.arrTail acc) cs = some (j, r) → ∃ its, j = Json.arr its := by
  intro n
  induction n with
  | zero => intro acc cs j r h; simp [parseStep] at h
  | succ n ih =>
    intro acc cs j r h
    simp only [parseStep] at h
    repeat' split at h
    all_goals
      first
      | exact Option.noConfusion h
      | exact ih _ _ _ _ h
      | · simp only [Option.some.injEq, Prod.mk.injEq] at h
          exact ⟨_, h.1.symm⟩

theorem strStarts_cons {c : Char} {s : String} (h : strStarts (String.mk [c]) s = true) :
    ∃ tl, s.data = c :: tl := by
  unfold strStarts at h
  cases hd : s.data with
  | nil => rw [hd] at h; simp [List.isPrefixOf] at h
  | cons c' tl =>
    rw [hd] at h
    simp only [List.isPrefixOf, List.isPrefixOf_nil_left, Bool.and_true, beq_iff_eq] at h
    exact ⟨tl, by rw [h]⟩

theorem skipWs_not_ws {c : Char} {tl : List Char} (h : isJsonWs c = false) :
    skipWs (c :: tl) = c :: tl := by
  simp [skipWs, List.dropWhile, h]

theorem json_loads_brace {s : String} {j : Json} (hs : strStarts "\x7b" s = true)
    (h : json_loads s = some j) : ∃ fs, j = Json.obj fs := by
  obtain ⟨tl, hd⟩ := strStarts_cons (c := '{') hs
  unfold json_loads at h
  rw [hd] at h
  have hv : parseVal (('{' :: tl).length + 1) ('{' :: tl)
      = parseStep (tl.length + 1) (.objTail []) (skipWs tl) := rfl
  rw [hv] at h
  split at h
  next j' rest hp =>
    obtain ⟨fs, rfl⟩ := parseStep_objTail_shape _ _ _ _ _ hp
    split at h
    · exact ⟨fs, by simpa using h.symm⟩
    · exact Option.noConfusion h
  next => exact Option.noConfusion h

theorem json_loads_bracket {s : String} {j : Json} (hs : strStarts "[" s = true)
    (h : json_loads s = some j) : ∃ its, j = Json.arr its := by
  obtain ⟨tl, hd⟩ := strStarts_cons (c := '[') hs
  unfold json_loads at h
  rw [hd] at h
  have hv : parseVal (('[' :: tl).length + 1) ('[' :: tl)
      = parseStep (tl.length + 1) (.arrTail []) (skipWs tl) := rfl
  rw [hv] at h
  split at h
  next j' rest hp =>
    obtain ⟨its, rfl⟩ := parseStep_arrTail_shape _ _ _ _ _ hp
    split at h
    · exact ⟨its, by simpa using h.symm⟩
    · exact Option.noConfusion h
  next => exact Option.noConfusion h

/-! ### Fixed-point lemmas for `try_parse_json` and `normalizeEntryVal` -/

theorem try_parse_json_nonstr {v : Json} (h : ∀ s, v ≠ Json.str s) :
    try_parse_json v = v := by
  cases v with
  | str s => exact absurd rfl (h s)
  | null => rfl
  | bool b => rfl
  | num m e => rfl
  | arr l => rfl
  | obj l => rfl

theorem try_parse_json_shape (v : Json) :
    try_parse_json v = v ∨ (∃ fs, try_parse_json v = Json.obj fs) ∨
      (∃ its, try_parse_json v = Json.arr its) := by
  cases v with
  | str s =>
    simp only [try_parse_json]
    split
    next hcond =>
      split
      next parsed hp =>
        rcases Bool.or_eq_true _ _ |>.mp hcond with hc | hc
        · obtain ⟨h1, _⟩ := Bool.and_eq_true _ _ |>.mp hc
          exact Or.inr (Or.inl (json_loads_brace h1 hp))
        · obtain ⟨h1, _⟩ := Bool.and_eq_true _ _ |>.mp hc
          exact Or.inr (Or.inr (json_loads_bracket h1 hp))
      next => exact Or.inl rfl
    next => exact Or.inl rfl
  | null => exact Or.inl rfl
  | bool b => exact Or.inl rfl
  | num m e => exact Or.inl rfl
  | arr l => exact Or.inl rfl
  | obj l => exact Or.inl rfl

theorem try_parse_json_idem (v : Json) :
    try_parse_json (try_parse_json v) = try_parse_json v := by
  rcases try_parse_json_shape v with h | ⟨fs, h⟩ | ⟨its, h⟩
  · rw [h, h]
  · rw [h]; rfl
  · rw [h]; rfl

theorem try_parse_json_notdrop {v : Json} (h : isDroppedVal v = false) :
    isDroppedVal (try_parse_json v) = false := by
  rcases try_parse_json_shape v with h' | ⟨fs, h'⟩ | ⟨its, h'⟩ <;> rw [h']
  · exact h
  · rfl
  · rfl

/-! ### Idempotence of the normalizer -/

theorem filterMap_normField_idem (d : List (String × Json)) :
    (d.filterMap normField).filterMap normField = d.filterMap normField := by
  induction d with
  | nil => rfl
  | cons kv t ih =>
    obtain ⟨k, v⟩ := kv
    by_cases hd : isDroppedVal v = true
    · rw [List.filterMap_cons, show normField (k, v) = none from by simp [normField, hd]]
      exact ih
    · rw [Bool.not_eq_true] at hd
      rw [List.filterMap_cons,
        show normField (k, v) = some (k, try_parse_json v) from by simp [normField, hd],
        List.filterMap_cons,
        show normField (k, try_parse_json v) = some (k, try_parse_json v) from by
          simp [normField, try_parse_json_notdrop hd, try_parse_json_idem],
        ih]

theorem filterMap_normItem_idem (items : List Json) :
    (items.filterMap normItem).filterMap normItem = items.filterMap normItem := by
  induction items with
  | nil => rfl
  | cons v t ih =>
    by_cases hd : isDroppedVal v = true
    · rw [List.filterMap_cons, show normItem v = none from by simp [normItem, hd]]
      exact ih
    · rw [Bool.not_eq_true] at hd
      rw [List.filterMap_cons,
        show normItem v = some (try_parse_json v) from by simp [normItem, hd],
        List.filterMap_cons,
        show normItem (try_parse_json v) = some (try_parse_json v) from by
          simp [normItem, try_parse_json_notdrop hd, try_parse_json_idem],
        ih]

theorem normalizeEntryVal_idem (v : Json) :
    normalizeEntryVal (normalizeEntryVal v) = normalizeEntryVal v := by
  cases hs : try_parse_json v with
  | null =>
    have h1 : normalizeEntryVal v = Json.null := by unfold normalizeEntryVal; rw [hs]
    rw [h1]; rfl
  | bool b =>
    have h1 : normalizeEntryVal v = Json.bool b := by unfold normalizeEntryVal; rw [hs]
    rw [h1]; rfl
  | num m e =>
    have h1 : normalizeEntryVal v = Json.num m e := by unfold normalizeEntryVal; rw [hs]
    rw [h1]; rfl
  | str s =>
    -- a string result forces `try_parse_json v = v`, so re-parsing is a no-op
    have hv : try_parse_json v = v := by
      rcases try_parse_json_shape v with h | ⟨fs2, h⟩ | ⟨its2, h⟩
      · exact h
      · rw [h] at hs; exact absurd hs (by simp)
      · rw [h] at hs; exact absurd hs (by simp)
    rw [hv] at hs
    subst hs
    have h1 : normalizeEntryVal (Json.str s) = Json.str s := by
      unfold normalizeEntryVal; rw [hv]
    rw [h1]
    exact h1
  | arr its =>
    have h1 : normalizeEntryVal v = Json.arr (its.filterMap normItem) := by
      unfold normalizeEntryVal; rw [hs]
    rw [h1,
      show normalizeEntryVal (Json.arr (its.filterMap normItem))
        = Json.arr ((its.filterMap normItem).filterMap normItem) from rfl,
      filterMap_normItem_idem]
  | obj fs =>
    have h1 : normalizeEntryVal v = Json.obj (fs.filterMap normField) := by
      unfold normalizeEntryVal; rw [hs]
    rw [h1,
      show normalizeEntryVal (Json.obj (fs.filterMap normField))
        = Json.obj ((fs.filterMap normField).filterMap normField) from rfl,
      filterMap_normField_idem]

theorem normalizeEntryVal_notdrop {v : Json} (h : isDroppedVal v = false) :
    isDroppedVal (normalizeEntryVal v) = false := by
  cases hs : try_parse_json v with
  | null =>
    -- `try_parse_json` can only return `null` by returning `v` itself
    rcases try_parse_json_shape v with h2 | ⟨fs2, h2⟩ | ⟨its2, h2⟩ <;>
      rw [h2] at hs
    · rw [hs] at h; exact absurd h (by simp [isDroppedVal])
    · exact absurd hs (by simp)
    · exact absurd hs (by simp)
  | bool b =>
    have h1 : normalizeEntryVal v = Json.bool b := by unfold normalizeEntryVal; rw [hs]
    rw [h1]; rfl
  | num m e =>
    have h1 : normalizeEntryVal v = Json.num m e := by unfold normalizeEntryVal; rw [hs]
    rw [h1]; rfl
  | str s =>
    have hv : try_parse_json v = v := by
      rcases try_parse_json_shape v with h2 | ⟨fs2, h2⟩ | ⟨its2, h2⟩
      · exact h2
      · rw [h2] at hs; exact absurd hs (by simp)
      · rw [h2] at hs; exact absurd hs (by simp)
    rw [hv] at hs
    subst hs
    have h1 : normalizeEntryVal (Json.str s) = Json.str s := by
      unfold normalizeEntryVal; rw [hv]
    rw [h1]
    exact h
  | arr its =>
    have h1 : normalizeEntryVal v = Json.arr (its.filterMap normItem) := by
      unfold normalizeEntryVal; rw [hs]
    rw [h1]; rfl
  | obj fs =>
    have h1 : normalizeEntryVal v = Json.obj (fs.filterMap normField) := by
      unfold normalizeEntryVal; rw [hs]
    rw [h1]; rfl

/-- Entries produced by the normalizer: never dropped and fixed under the
entry transform. -/
def NormFixed (kv : String × Json) : Prop :=
  isDroppedVal kv.2 = false ∧ normalizeEntryVal kv.2 = kv.2

theorem normStep_fold_entries : ∀ (args : List (String × Json))
    (acc : List (String × Json)), (∀ kv ∈ acc, NormFixed kv) →
    ∀ kv ∈ args.foldl normStep acc, NormFixed kv := by
  intro args
  induction args with
  | nil => intro acc hacc kv h; exact hacc kv h
  | cons hd t ih =>
    intro acc hacc kv h
    obtain ⟨k, v⟩ := hd
    rw [List.foldl_cons] at h
    refine ih _ ?_ kv h
    intro kv' hkv'
    by_cases hdrop : isDroppedVal v = true
    · rw [show normStep acc (k, v) = acc from by simp [normStep, hdrop]] at hkv'
      exact hacc kv' hkv'
    · rw [Bool.not_eq_true] at hdrop
      rw [show normStep acc (k, v) = objInsert acc k (normalizeEntryVal v) from by
        simp [normStep, hdrop]] at hkv'
      rcases objInsert_mem _ _ _ _ hkv' with hm | hm
      · exact hacc kv' hm
      · subst hm
        exact ⟨normalizeEntryVal_notdrop hdrop, normalizeEntryVal_idem v⟩

theorem normStep_fold_keys_nodup : ∀ (args : List (String × Json))
    (acc : List (String × Json)), (keysOf acc).Nodup →
    (keysOf (args.foldl normStep acc)).Nodup := by
  intro args
  induction args with
  | nil => intro acc hacc; exact hacc
  | cons hd t ih =>
    intro acc hacc
    rw [List.foldl_cons]
    refine ih _ ?_
    unfold normStep
    by_cases hdrop : isDroppedVal hd.2 = true
    · rw [if_pos hdrop]; exact hacc
    · rw [if_neg hdrop]; exact objInsert_keys_nodup hacc

theorem normStep_fold_freeze : ∀ (t : List (String × Json))
    (acc : List (String × Json)) (k : String) (v : Json), k ∉ keysOf t →
    t.foldl normStep ((k, v) :: acc) = (k, v) :: t.foldl normStep acc := by
  intro t
  induction t with
  | nil => intro acc k v _; rfl
  | cons hd t2 ih =>
    intro acc k v hk
    obtain ⟨k', v'⟩ := hd
    have hk1 : k ≠ k' := fun h => hk (by simp [keysOf, h])
    have hk2 : k ∉ keysOf t2 := fun h => hk (by simp [keysOf] at h ⊢; exact Or.inr h)
    rw [List.foldl_cons, List.foldl_cons]
    by_cases hdrop : isDroppedVal v' = true
    · rw [show normStep ((k, v) :: acc) (k', v') = (k, v) :: acc from by
        simp [normStep, hdrop]]
      rw [show normStep acc (k', v') = acc from by simp [normStep, hdrop]]
      exact ih acc k v hk2
    · rw [show normStep ((k, v) :: acc) (k', v')
          = (k, v) :: objInsert acc k' (normalizeEntryVal v') from by
        simp [normStep, hdrop, objInsert, if_neg hk1]]
      rw [show normStep acc (k', v') = objInsert acc k' (normalizeEntryVal v') from by
        simp [normStep, hdrop]]
      exact ih _ k v hk2

theorem normStep_fold_fixed : ∀ (l : List (String × Json)),
    (∀ kv ∈ l, NormFixed kv) → (keysOf l).Nodup → l.foldl normStep [] = l := by
  intro l
  induction l with
  | nil => intro _ _; rfl
  | cons hd t ih =>
    intro hfix hnd
    obtain ⟨k, v⟩ := hd
    obtain ⟨hdrop, hfixv⟩ := hfix (k, v) (List.mem_cons_self _ _)
    have hk : k ∉ keysOf t := by
      simp only [keysOf, List.map_cons, List.nodup_cons] at hnd
      exact hnd.1
    have hnd' : (keysOf t).Nodup := by
      simp only [keysOf, List.map_cons, List.nodup_cons] at hnd
      exact hnd.2
    rw [List.foldl_cons]
    rw [show normStep [] (k, v) = [(k, normalizeEntryVal v)] from by
      simp [normStep, hdrop, objInsert]]
    rw [hfixv, normStep_fold_freeze t [] k v hk]
    rw [ih (fun kv hkv => hfix kv (List.mem_cons_of_mem _ hkv)) hnd']

/-- Claim C4.  Argument normalization is idempotent: applying
`normalize_tool_arguments` twice yields the same arguments mapping as
applying it once, for every tool name and every arguments mapping. -/
theorem C4_normalize_idempotent (tool_name : String) (args : List (String × Json)) :
    normalize_tool_arguments tool_name (normalize_tool_arguments tool_name args) =
      normalize_tool_arguments tool_name args := by
  show (normalize_tool_arguments tool_name args).foldl normStep []
      = normalize_tool_arguments tool_name args
  refine normStep_fold_fixed _ ?_ ?_
  · intro kv h
    exact normStep_fold_entries args [] (by intro kv' h'; cases h') kv h
  · exact normStep_fold_keys_nodup args [] (by simp [keysOf])

/-! ### Pointwise characterization of the normalizer -/

theorem objGet_not_mem : ∀ (l : List (String × Json)) (k : String),
    k ∉ keysOf l → objGet l k = none := by
  intro l
  induction l with
  | nil => intro k _; rfl
  | cons hd t ih =>
    intro k hk
    obtain ⟨k', v'⟩ := hd
    have h1 : k' ≠ k := fun h => hk (by simp [keysOf, h])
    have h2 : k ∉ keysOf t := fun h => hk (by simp [keysOf] at h ⊢; exact Or.inr h)
    simp only [objGet, if_neg h1]
    exact ih k h2

theorem normStep_fold_keys_bound : ∀ (args acc : List (String × Json)) (k : String),
    k ∉ keysOf acc → k ∉ keysOf args → k ∉ keysOf (args.foldl normStep acc) := by
  intro args
  induction args with
  | nil => intro acc k h _; exact h
  | cons hd t ih =>
    intro acc k hacc hargs
    obtain ⟨k', v'⟩ := hd
    have h1 : k ≠ k' := fun h => hargs (by simp [keysOf, h])
    have h2 : k ∉ keysOf t := fun h => hargs (by simp [keysOf] at h ⊢; exact Or.inr h)
    rw [List.foldl_cons]
    refine ih _ k ?_ h2
    unfold normStep
    by_cases hdrop : isDroppedVal v' = true
    · rw [if_pos hdrop]; exact hacc
    · rw [if_neg hdrop, objInsert_keys]
      by_cases hm : k' ∈ keysOf acc
      · rw [if_pos hm]; exact hacc
      · rw [if_neg hm]
        intro hk
        rcases List.mem_append.mp hk with hk | hk
        · exact hacc hk
        · exact h1 (by simpa using hk)

theorem normalize_lookup (tool_name : String) : ∀ (args : List (String × Json)),
    (keysOf args).Nodup → ∀ (k : String) (v : Json), (k, v) ∈ args →
    objGet (normalize_tool_arguments tool_name args) k
      = if isDroppedVal v = true then none else some (normalizeEntryVal v) := by
  intro args
  induction args with
  | nil => intro _ k v hmem; cases hmem
  | cons hd t ih =>
    intro hnd k v hmem
    obtain ⟨k0, v0⟩ := hd
    have hk0 : k0 ∉ keysOf t := by
      simp only [keysOf, List.map_cons, List.nodup_cons] at hnd
      exact hnd.1
    have hnd' : (keysOf t).Nodup := by
      simp only [keysOf, List.map_cons, List.nodup_cons] at hnd
      exact hnd.2
    show objGet (((k0, v0) :: t).foldl normStep []) k = _
    rw [List.foldl_cons]
    by_cases hdrop0 : isDroppedVal v0 = true
    · rw [show normStep [] (k0, v0) = [] from by simp [normStep, hdrop0]]
      rcases List.mem_cons.mp hmem with heq | hmem'
      · obtain ⟨hk, hv⟩ := Prod.mk.injEq .. ▸ heq
        subst hk; subst hv
        rw [if_pos hdrop0]
        exact objGet_not_mem _ _
          (normStep_fold_keys_bound t [] k (by simp [keysOf]) hk0)
      · exact ih hnd' k v hmem'
    · rw [show normStep [] (k0, v0) = [(k0, normalizeEntryVal v0)] from by
        simp [normStep, hdrop0, objInsert]]
      rw [normStep_fold_freeze t [] k0 (normalizeEntryVal v0) hk0]
      rcases List.mem_cons.mp hmem with heq | hmem'
      · obtain ⟨hk, hv⟩ := Prod.mk.injEq .. ▸ heq
        subst hk; subst hv
        rw [if_neg hdrop0]
        simp [objGet]
      · have hkne : k0 ≠ k := by
          intro h
          subst h
          exact hk0 (by simpa [keysOf] using List.mem_map_of_mem Prod.fst hmem')
        rw [show objGet ((k0, normalizeEntryVal v0) :: t.foldl normStep []) k
            = objGet (t.foldl normStep []) k from by simp [objGet, hkne]]
        exact ih hnd' k v hmem'

theorem keysOf_filterMap_normField (d : List (String × Json)) (k2 : String) :
    k2 ∈ keysOf (d.filterMap normField) ↔
      ∃ v2, (k2, v2) ∈ d ∧ isDroppedVal v2 = false := by
  induction d with
  | nil => simp [keysOf]
  | cons hd t ih =>
    obtain ⟨k', v'⟩ := hd
    by_cases hdrop : isDroppedVal v' = true
    · rw [List.filterMap_cons,
        show normField (k', v') = none from by simp [normField, hdrop]]
      rw [ih]
      constructor
      · rintro ⟨v2, hm, hv2⟩
        exact ⟨v2, List.mem_cons_of_mem _ hm, hv2⟩
      · rintro ⟨v2, hm, hv2⟩
        rcases List.mem_cons.mp hm with heq | hm2
        · obtain ⟨hk, hv⟩ := Prod.mk.injEq .. ▸ heq
          subst hv
          rw [hdrop] at hv2
          cases hv2
        · exact ⟨v2, hm2, hv2⟩
    · rw [Bool.not_eq_true] at hdrop
      rw [List.filterMap_cons,
        show normField (k', v') = some (k', try_parse_json v') from by
          simp [normField, hdrop]]
      simp only [keysOf, List.map_cons, List.mem_cons]
      rw [show (k2 ∈ List.map Prod.fst (t.filterMap normField))
          = (k2 ∈ keysOf (t.filterMap normField)) from rfl, ih]
      constructor
      · rintro (heq | ⟨v2, hm, hv2⟩)
        · exact ⟨v', Or.inl (by rw [heq]), hdrop⟩
        · exact ⟨v2, Or.inr hm, hv2⟩
      · rintro ⟨v2, hm, hv2⟩
        rcases hm with heq | hm2
        · obtain ⟨hk, hv⟩ := Prod.mk.injEq .. ▸ heq
          exact Or.inl hk
        · exact Or.inr ⟨v2, hm2, hv2⟩

theorem assoc_value_unique : ∀ (d : List (String × Json)) (k : String) (a b : Json),
    (keysOf d).Nodup → (k, a) ∈ d → (k, b) ∈ d → a = b := by
  intro d
  induction d with
  | nil => intro k a b _ ha; cases ha
  | cons hd t ih =>
    intro k a b hnd ha hb
    obtain ⟨k', v'⟩ := hd
    have hk' : k' ∉ keysOf t := by
      simp only [keysOf, List.map_cons, List.nodup_cons] at hnd
      exact hnd.1
    have hnd' : (keysOf t).Nodup := by
      simp only [keysOf, List.map_cons, List.nodup_cons] at hnd
      exact hnd.2
    rcases List.mem_cons.mp ha with hea | ha' <;> rcases List.mem_cons.mp hb with heb | hb'
    · obtain ⟨_, hva⟩ := Prod.mk.injEq .. ▸ hea
      obtain ⟨_, hvb⟩ := Prod.mk.injEq .. ▸ heb
      rw [hva, hvb]
    · obtain ⟨hka, _⟩ := Prod.mk.injEq .. ▸ hea
      subst hka
      exact absurd (by simpa [keysOf] using List.mem_map_of_mem Prod.fst hb') hk'
    · obtain ⟨hkb, _⟩ := Prod.mk.injEq .. ▸ heb
      subst hkb
      exact absurd (by simpa [keysOf] using List.mem_map_of_mem Prod.fst ha') hk'
    · exact ih k a b hnd' ha' hb'

theorem try_parse_json_ws {s : String} (hstrip : pyStrip s = "") :
    try_parse_json (Json.str s) = Json.str s := by
  simp only [try_parse_json, hstrip]
  rfl

/-- Counterexample to claim C5 as stated: the normalizer does not drop a
pair whose value is a whitespace-only string (only `None` and the empty
string are dropped), and a `null` nested two levels deep is kept. -/
theorem C5_counterexample :
    normalize_tool_arguments "create_delivery" [("note", Json.str " ")]
        = [("note", Json.str " ")] ∧
    normalize_tool_arguments "create_delivery"
        [("sender", Json.obj [("address", Json.obj [("line2", Json.null)])])]
      = [("sender", Json.obj [("address", Json.obj [("line2", Json.null)])])] :=
  ⟨rfl, rfl⟩

/-- The nested-object comprehension (line 930) keeps exactly the members
whose value is not `None`/`""`, and only decodes the kept values. -/
theorem filterMap_normField_eq_filter_map (d : List (String × Json)) :
    d.filterMap normField
      = (d.filter (fun kv => !(isDroppedVal kv.2))).map
          (fun kv => (kv.1, try_parse_json kv.2)) := by
  induction d with
  | nil => rfl
  | cons kv t ih =>
    cases hd : isDroppedVal kv.2 with
    | true => simp [List.filterMap_cons, List.filter_cons, normField, hd, ih]
    | false => simp [List.filterMap_cons, List.filter_cons, normField, hd, ih]

/-- The array comprehension (line 935) keeps exactly the items that are
not `None`/`""`, and only decodes the kept items. -/
theorem filterMap_normItem_eq_filter_map (items : List Json) :
    items.filterMap normItem
      = (items.filter (fun it => !(isDroppedVal it))).map try_parse_json := by
  induction items with
  | nil => rfl
  | cons it t ih =>
    cases hd : isDroppedVal it with
    | true => simp [List.filterMap_cons, List.filter_cons, normItem, hd, ih]
    | false => simp [List.filterMap_cons, List.filter_cons, normItem, hd, ih]

/-- Claim C5 (amended).  For every arguments mapping (with the distinct
keys every Python dict has), the normalizer drops exactly the pairs
whose value is `null` or the empty string: at the top level, and one
level inside a value that is (or, double-encoded, parses to) an object
or an array.  A whitespace-only string value is kept, not dropped, and
the surviving one-level members are only decoded by `try_parse_json`,
never filtered — so `null`/empty values nested deeper than one level are
kept. -/
theorem C5_normalizer_drop_behavior (tool_name : String)
    (args : List (String × Json)) (hnd : (keysOf args).Nodup) :
    (∀ k v, (k, v) ∈ args → isDroppedVal v = true →
      objGet (normalize_tool_arguments tool_name args) k = none) ∧
    (∀ k s, (k, Json.str s) ∈ args → s ≠ "" → pyStrip s = "" →
      objGet (normalize_tool_arguments tool_name args) k = some (Json.str s)) ∧
    (∀ k v d, (k, v) ∈ args → isDroppedVal v = false →
      try_parse_json v = Json.obj d →
      objGet (normalize_tool_arguments tool_name args) k
        = some (Json.obj ((d.filter (fun kv => !(isDroppedVal kv.2))).map
            (fun kv => (kv.1, try_parse_json kv.2))))) ∧
    (∀ k v items, (k, v) ∈ args → isDroppedVal v = false →
      try_parse_json v = Json.arr items →
      objGet (normalize_tool_arguments tool_name args) k
        = some (Json.arr ((items.filter (fun it => !(isDroppedVal it))).map
            try_parse_json))) := by
  refine ⟨?_, ?_, ?_, ?_⟩
  · intro k v hmem hdrop
    rw [normalize_lookup tool_name args hnd k v hmem, if_pos hdrop]
  · intro k s hmem hne hstrip
    have hdrop : isDroppedVal (Json.str s) = false := by
      simp [isDroppedVal, hne]
    rw [normalize_lookup tool_name args hnd k (Json.str s) hmem, if_neg (by simp [hdrop])]
    have hnev : normalizeEntryVal (Json.str s) = Json.str s := by
      unfold normalizeEntryVal
      rw [try_parse_json_ws hstrip]
    rw [hnev]
  · intro k v d hmem hdrop hobj
    have hnev : normalizeEntryVal v = Json.obj (d.filterMap normField) := by
      unfold normalizeEntryVal
      rw [hobj]
    rw [normalize_lookup tool_name args hnd k v hmem, if_neg (by simp [hdrop]),
      hnev, filterMap_normField_eq_filter_map]
  · intro k v items hmem hdrop harr
    have hnev : normalizeEntryVal v = Json.arr (items.filterMap normItem) := by
      unfold normalizeEntryVal
      rw [harr]
    rw [normalize_lookup tool_name args hnd k v hmem, if_neg (by simp [hdrop]),
      hnev, filterMap_normItem_eq_filter_map]

/-- Concrete instantiation of the amended C5 theorem: a `null` value is
dropped; a whitespace-only string survives; inside a double-encoded
object the `null` member is dropped while the other member survives; and
inside a double-encoded array the `null` and `""` items are dropped
while a `null` nested one level further (below the one-level descent) is
kept. -/
theorem C5_normalizer_drop_behavior_witness :
    objGet (normalize_tool_arguments "t"
        [("a", Json.null), ("w", Json.str " "),
          ("o", Json.str "\x7b\"x\": null, \"y\": 1\x7d"),
          ("l", Json.str "[null, \"\", \"z\", \x7b\"deep\": null\x7d]")]) "a"
      = none ∧
    objGet (normalize_tool_arguments "t"
        [("a", Json.null), ("w", Json.str " "),
          ("o", Json.str "\x7b\"x\": null, \"y\": 1\x7d"),
          ("l", Json.str "[null, \"\", \"z\", \x7b\"deep\": null\x7d]")]) "w"
      = some (Json.str " ") ∧
    objGet (normalize_tool_arguments "t"
        [("a", Json.null), ("w", Json.str " "),
          ("o", Json.str "\x7b\"x\": null, \"y\": 1\x7d"),
          ("l", Json.str "[null, \"\", \"z\", \x7b\"deep\": null\x7d]")]) "o"
      = some (Json.obj [("y", Json.num 1 0)]) ∧
    objGet (normalize_tool_arguments "t"
        [("a", Json.null), ("w", Json.str " "),
          ("o", Json.str "\x7b\"x\": null, \"y\": 1\x7d"),
          ("l", Json.str "[null, \"\", \"z\", \x7b\"deep\": null\x7d]")]) "l"
      = some (Json.arr [Json.str "z", Json.obj [("deep", Json.null)]]) := by
  have h := C5_normalizer_drop_behavior "t"
    [("a", Json.null), ("w", Json.str " "),
      ("o", Json.str "\x7b\"x\": null, \"y\": 1\x7d"),
      ("l", Json.str "[null, \"\", \"z\", \x7b\"deep\": null\x7d]")]
    (by simp [keysOf])
  exact ⟨h.1 "a" Json.null (by simp) rfl,
    h.2.1 "w" " " (by simp) (by decide) rfl,
    h.2.2.1 "o" (Json.str "\x7b\"x\": null, \"y\": 1\x7d")
      [("x", Json.null), ("y", Json.num 1 0)] (by simp) rfl rfl,
    h.2.2.2 "l" (Json.str "[null, \"\", \"z\", \x7b\"deep\": null\x7d]")
      [Json.null, Json.str "", Json.str "z", Json.obj [("deep", Json.null)]]
      (by simp) rfl rfl⟩

/-! ## Tool Call Extractor (`contains_tool_call` and `parse_tool_calls`,
lines 736-897) -/

/-- Index of the first occurrence of `pat` in a character list, if any
(model of `str.find` / the start of the first regex match of a literal
pattern). -/
def firstOccur (pat : List Char) : List Char → Option Nat
  | [] => if pat.isEmpty then some 0 else none
  | c :: t =>
    if pat.isPrefixOf (c :: t) then some 0
    else (firstOccur pat t).map (· + 1)

/-- Python's substring test `pat in s`. -/
def containsSub (pat l : List Char) : Bool :=
  (firstOccur pat l).isSome

/-- The opening delimiter. -/
def openTagL : List Char := "<tool_call>".data

/-- The closing delimiter. -/
def closeTagL : List Char := "</tool_call>".data

/-- `contains_tool_call` (lines 736-745): opening tag, closing tag, a
`"tool_calls"` signature, or a bare invocation object followed by the
closing tag. -/
def contains_tool_call (response_text : String) : Bool :=
  let cs := response_text.data
  let has_opening_tag := containsSub openTagL cs
  let has_closing_tag := containsSub closeTagL cs
  let has_tool_calls_pattern :=
    containsSub "\"tool_calls\"".data cs && containsSub "\"name\"".data cs
  let looks_like_tool_call :=
    containsSub "\"name\"".data cs && containsSub "\"arguments\"".data cs &&
      has_closing_tag
  has_opening_tag || has_closing_tag || has_tool_calls_pattern || looks_like_tool_call

/-- Model of `re.findall(r"<tool_call>([\s\S]*?)</tool_call>", text)`:
repeatedly take the earliest opening tag and the earliest closing tag
after it, capturing the text between (line 758). -/
def findCompleteMatches : Nat → List Char → List (List Char)
  | 0, _ => []
  | Nat.succ fuel, cs =>
    match firstOccur openTagL cs with
    | none => []
    | some i =>
      let afterOpen := cs.drop (i + 11)
      match firstOccur closeTagL afterOpen with
      | none => []
      | some j => afterOpen.take j :: findCompleteMatches fuel (afterOpen.drop (j + 12))

/-- Model of `re.finditer` start positions for a literal pattern
(non-overlapping scan; `<tool_call>` cannot overlap itself). -/
def findAllOccur : Nat → List Char → List Char → Nat → List Nat
  | 0, _, _, _ => []
  | Nat.succ fuel, pat, cs, base =>
    match firstOccur pat cs with
    | none => []
    | some i =>
        (base + i) ::
          findAllOccur fuel pat (cs.drop (i + pat.length)) (base + i + pat.length)

/-- All start positions of `<tool_call>` in a text (line 765). -/
def openPositions (cs : List Char) : List Nat :=
  findAllOccur (cs.length + 1) openTagL cs 0

/-- Phase 1 of `parse_tool_calls` (lines 756-783): the spans to process.
Complete `<tool_call>…</tool_call>` matches first; with none, an unclosed
opening tag takes everything after it to end-of-text (stripped, line
769); with none of those, a closing tag without an opening tag takes
everything before it (stripped, line 781). -/
def extract_spans (cs : List Char) : List (List Char) :=
  let complete := findCompleteMatches (cs.length + 1) cs
  if ¬ complete.isEmpty then complete
  else if containsSub openTagL cs then
    (openPositions cs).map (fun pos => pyStripList (cs.drop (pos + 11)))
  else if containsSub closeTagL cs then
    match firstOccur closeTagL cs with
    | some p => [pyStripList (cs.take p)]
    | none => []
  else []

/-- A parsed tool invocation: `{"name": …, "arguments": …}`
(both fields are arbitrary JSON, as in the Python dict). -/
structure ToolCall where
  name : Json
  arguments : Json
deriving Repr

/-- Index of the first `{` or `[` in the span (lines 796-804). -/
def firstBracketIdx (l : List Char) : Option Nat :=
  l.findIdx? (fun c => c = '{' || c = '[')

/-- The bracket-counting loop of `parse_tool_calls` (lines 809-836):
walks the span from the first bracket, tracking string/escape state, and
returns `json_end` (one past the closing bracket) when the depth count
returns to zero; `none` when the brackets never rebalance. -/
def scanLoop : List Char → Int → Bool → Bool → Nat → Option Nat
  | [], _, _, _, _ => none
  | c :: rest, count, inStr, esc, i =>
    if esc then scanLoop rest count inStr false (i + 1)
    else if c = '\\' then scanLoop rest count inStr true (i + 1)
    else if c = '"' then scanLoop rest count (!inStr) esc (i + 1)
    else if !inStr && (c = '{' || c = '[') then
      scanLoop rest (count + 1) inStr esc (i + 1)
    else if !inStr && (c = '}' || c = ']') then
      if count - 1 = 0 then some (i + 1)
      else scanLoop rest (count - 1) inStr esc (i + 1)
    else scanLoop rest count inStr esc (i + 1)

/-- The candidate JSON payload of a span (lines 791-844): strip, locate
the first bracket, bracket-scan for the matching close; on
`json_end <= json_start` (or no bracket at all) the raw stripped span is
used verbatim. -/
def jsonSliceContent (span : List Char) : List Char :=
  let json_content := pyStripList span
  match firstBracketIdx json_content with
  | none => json_content
  | some json_start =>
    match scanLoop (json_content.drop json_start) 0 false false json_start with
    | some json_end =>
      if json_start < json_end then (json_content.take json_end).drop json_start
      else json_content
    | none => json_content

/-- `tc.get("arguments") or tc.get("parameters") or {}` (lines 855, 866,
877): Python `or` selects the first truthy operand. -/
def invocationArgs (fields : List (String × Json)) : Json :=
  let a := (objGet fields "arguments").getD Json.null
  if a.truthy then a
  else
    let p := (objGet fields "parameters").getD Json.null
    if p.truthy then p else Json.obj []

/-- One element of an invocation array (lines 853-861 and 875-883):
an object with a truthy `name` yields a ToolCall; an object with a falsy
`name` is skipped; a non-object raises `AttributeError` on `.get`,
aborting the rest of the span but keeping earlier appends. -/
def arrInvocations : List Json → List ToolCall
  | [] => []
  | Json.obj fields :: rest =>
    let nm := (objGet fields "name").getD Json.null
    if nm.truthy then ⟨nm, invocationArgs fields⟩ :: arrInvocations rest
    else arrInvocations rest
  | _ :: _ => []

/-- Shape dispatch on the parsed payload (lines 850-883): an array of
invocation objects, a single invocation object, or an object with a
`tool_calls` array; anything else (including a non-dict payload, whose
`.get` raises) contributes nothing. -/
def processParsed (parsed : Json) : List ToolCall :=
  match parsed with
  | Json.arr items => arrInvocations items
  | Json.obj fields =>
    let nm := (objGet fields "name").getD Json.null
    if nm.truthy then [⟨nm, invocationArgs fields⟩]
    else
      let tcs := (objGet fields "tool_calls").getD Json.null
      match tcs with
      | Json.arr items => if items.isEmpty then [] else arrInvocations items
      | _ => []
  | _ => []

/-- Process one span (the loop body of `parse_tool_calls`, lines
787-890): slice out the candidate JSON, parse it, dispatch on its shape;
parse failures contribute nothing and do not abort later spans. -/
def process_span (span : List Char) : List ToolCall :=
  match json_loads (String.mk (jsonSliceContent span)) with
  | none => []
  | some parsed => processParsed parsed

/-- `parse_tool_calls` (lines 748-897). -/
def parse_tool_calls (response_text : String) : List ToolCall :=
  (extract_spans response_text.data).foldl (fun acc m => acc ++ process_span m) []

example :
    parse_tool_calls
        "x <tool_call>\x7b\"name\": \"create_delivery\", \"arguments\": \x7b\"sender\": \x7b\"name\": \"Kobi\"\x7d\x7d\x7d</tool_call> y"
      = [⟨Json.str "create_delivery",
          Json.obj [("sender", Json.obj [("name", Json.str "Kobi")])]⟩] := rfl

example :
    parse_tool_calls "pre <tool_call>\x7b\"name\": \"t\", \"arguments\": \x7b\"a\": 1\x7d\x7d oops"
      = [⟨Json.str "t", Json.obj [("a", Json.num 1 0)]⟩] := rfl

example :
    parse_tool_calls "\x7b\"name\": \"t\", \"arguments\": \x7b\"a\": 1\x7d\x7d</tool_call> post"
      = [⟨Json.str "t", Json.obj [("a", Json.num 1 0)]⟩] := rfl

example : contains_tool_call "no tools here" = false := rfl

example : contains_tool_call "\x7b\"name\": \"t\", \"arguments\": \x7b\x7d\x7d</tool_call>" = true := rfl

/-- Counterexample to claim C8 as stated: with `arguments` present but
falsy (the empty mapping) and `parameters` present, the parser takes the
`parameters` value, not the present `arguments` value — the fallback is
on falsiness, not only on absence. -/
theorem C8_counterexample :
    parse_tool_calls
        "<tool_call>\x7b\"name\": \"t\", \"arguments\": \x7b\x7d, \"parameters\": \x7b\"x\": 1\x7d\x7d</tool_call>"
      = [⟨Json.str "t", Json.obj [("x", Json.num 1 0)]⟩] ∧
    ¬ parse_tool_calls
        "<tool_call>\x7b\"name\": \"t\", \"arguments\": \x7b\x7d, \"parameters\": \x7b\"x\": 1\x7d\x7d</tool_call>"
      = [⟨Json.str "t", Json.obj []⟩] := by
  refine ⟨rfl, fun h => ?_⟩
  rw [show parse_tool_calls
      "<tool_call>\x7b\"name\": \"t\", \"arguments\": \x7b\x7d, \"parameters\": \x7b\"x\": 1\x7d\x7d</tool_call>"
    = [⟨Json.str "t", Json.obj [("x", Json.num 1 0)]⟩] from rfl] at h
  injection h with h4 _
  injection h4 with _ h5
  injection h5 with h6
  exact List.noConfusion h6

/-- Claim C8 (amended).  For every parsed invocation object — as a single
object, as an array element, or as a `tool_calls` element — the resulting
ToolCall's arguments are the object's `arguments` value when that value
is truthy, else the `parameters` value when truthy, else the empty
mapping; so `parameters` is used whenever `arguments` is absent or falsy
(null, empty mapping, empty string, zero or false), not only when it is
absent. -/
theorem C8_arguments_fallback (fields : List (String × Json))
    (hname : ((objGet fields "name").getD Json.null).truthy = true) :
    processParsed (Json.obj fields)
        = [⟨(objGet fields "name").getD Json.null,
            if ((objGet fields "arguments").getD Json.null).truthy then
              (objGet fields "arguments").getD Json.null
            else if ((objGet fields "parameters").getD Json.null).truthy then
              (objGet fields "parameters").getD Json.null
            else Json.obj []⟩] ∧
    processParsed (Json.arr [Json.obj fields])
        = [⟨(objGet fields "name").getD Json.null,
            if ((objGet fields "arguments").getD Json.null).truthy then
              (objGet fields "arguments").getD Json.null
            else if ((objGet fields "parameters").getD Json.null).truthy then
              (objGet fields "parameters").getD Json.null
            else Json.obj []⟩] ∧
    processParsed (Json.obj [("tool_calls", Json.arr [Json.obj fields])])
        = [⟨(objGet fields "name").getD Json.null,
            if ((objGet fields "arguments").getD Json.null).truthy then
              (objGet fields "arguments").getD Json.null
            else if ((objGet fields "parameters").getD Json.null).truthy then
              (objGet fields "parameters").getD Json.null
            else Json.obj []⟩] := by
  refine ⟨?_, ?_, ?_⟩
  · simp only [processParsed, hname, if_true, invocationArgs]
  · simp only [processParsed, arrInvocations, hname, if_true, invocationArgs]
  · have hstep : processParsed (Json.obj [("tool_calls", Json.arr [Json.obj fields])])
        = arrInvocations [Json.obj fields] := rfl
    rw [hstep]
    simp only [arrInvocations, hname, if_true, invocationArgs]

/-- Concrete instantiation of the amended C8 theorem: `arguments` is the
empty mapping, so the `parameters` value is selected, in all three
invocation shapes. -/
theorem C8_arguments_fallback_witness :
    processParsed (Json.obj [("name", Json.str "t"), ("arguments", Json.obj []),
        ("parameters", Json.obj [("x", Json.num 1 0)])])
      = [⟨Json.str "t", Json.obj [("x", Json.num 1 0)]⟩] ∧
    processParsed (Json.arr [Json.obj [("name", Json.str "t"),
        ("arguments", Json.obj []), ("parameters", Json.obj [("x", Json.num 1 0)])]])
      = [⟨Json.str "t", Json.obj [("x", Json.num 1 0)]⟩] ∧
    processParsed (Json.obj [("tool_calls", Json.arr [Json.obj [("name", Json.str "t"),
        ("arguments", Json.obj []), ("parameters", Json.obj [("x", Json.num 1 0)])]])])
      = [⟨Json.str "t", Json.obj [("x", Json.num 1 0)]⟩] := by
  have h := C8_arguments_fallback
    [("name", Json.str "t"), ("arguments", Json.obj []),
      ("parameters", Json.obj [("x", Json.num 1 0)])] (by decide)
  exact ⟨h.1, h.2.1, h.2.2⟩

/-! ### Missing-delimiter fallback -/

theorem containsSub_cons_false {pat : List Char} {c : Char} {l : List Char}
    (h : containsSub pat (c :: l) = false) : containsSub pat l = false := by
  unfold containsSub at h ⊢
  simp only [firstOccur] at h
  split at h
  · simp at h
  · simpa using h

theorem containsSub_drop_false {pat : List Char} : ∀ (n : Nat) (l : List Char),
    containsSub pat l = false → containsSub pat (l.drop n) = false := by
  intro n
  induction n with
  | zero => intro l h; exact h
  | succ n ih =>
    intro l h
    cases l with
    | nil => exact h
    | cons c t => exact ih t (containsSub_cons_false h)

theorem firstOccur_eq_none {pat l : List Char} (h : containsSub pat l = false) :
    firstOccur pat l = none := by
  unfold containsSub at h
  cases hf : firstOccur pat l with
  | none => rfl
  | some i => rw [hf] at h; cases h

theorem findCompleteMatches_nil_of_noclose (fuel : Nat) (cs : List Char)
    (h : containsSub closeTagL cs = false) : findCompleteMatches fuel cs = [] := by
  cases fuel with
  | zero => rfl
  | succ n =>
    show (match firstOccur openTagL cs with
      | none => []
      | some i =>
        match firstOccur closeTagL (cs.drop (i + 11)) with
        | none => []
        | some j => (cs.drop (i + 11)).take j ::
            findCompleteMatches n ((cs.drop (i + 11)).drop (j + 12))) = []
    cases ho : firstOccur openTagL cs with
    | none => rfl
    | some i =>
      dsimp only
      rw [firstOccur_eq_none (containsSub_drop_false (i + 11) cs h)]

theorem findCompleteMatches_nil_of_noopen (fuel : Nat) (cs : List Char)
    (h : containsSub openTagL cs = false) : findCompleteMatches fuel cs = [] := by
  cases fuel with
  | zero => rfl
  | succ n =>
    show (match firstOccur openTagL cs with
      | none => []
      | some i =>
        match firstOccur closeTagL (cs.drop (i + 11)) with
        | none => []
        | some j => (cs.drop (i + 11)).take j ::
            findCompleteMatches n ((cs.drop (i + 11)).drop (j + 12))) = []
    rw [firstOccur_eq_none h]

theorem openPositions_contains {cs : List Char} {p : Nat} {rest : List Nat}
    (h : openPositions cs = p :: rest) : containsSub openTagL cs = true := by
  unfold containsSub
  cases ho : firstOccur openTagL cs with
  | some i => rfl
  | none =>
    exfalso
    unfold openPositions at h
    rw [show findAllOccur (cs.length + 1) openTagL cs 0
        = match firstOccur openTagL cs with
          | none => []
          | some i => (0 + i) ::
              findAllOccur cs.length openTagL (cs.drop (i + openTagL.length))
                (0 + i + openTagL.length) from rfl, ho] at h
    cases h

/-- Claim C6.  A text with an opening `<tool_call>` delimiter but no
closing delimiter is parsed with everything after the opening delimiter
(to end-of-text, stripped) as the span; a text with a closing delimiter
but no opening delimiter is parsed with everything before the closing
delimiter as the span; in both cases, when the span's extracted payload
is a valid JSON invocation object, `parse_tool_calls` yields exactly the
ToolCall whose name and arguments are taken from that JSON. -/
theorem C6_missing_delimiter_fallback :
    (∀ (t : List Char) (p : Nat) (fields : List (String × Json)) (nm args : Json),
      containsSub closeTagL t = false →
      openPositions t = [p] →
      json_loads (String.mk (jsonSliceContent (pyStripList (t.drop (p + 11)))))
        = some (Json.obj fields) →
      objGet fields "name" = some nm → nm.truthy = true →
      objGet fields "arguments" = some args → args.truthy = true →
      extract_spans t = [pyStripList (t.drop (p + 11))] ∧
      parse_tool_calls (String.mk t) = [⟨nm, args⟩]) ∧
    (∀ (t : List Char) (p : Nat) (fields : List (String × Json)) (nm args : Json),
      containsSub openTagL t = false →
      firstOccur closeTagL t = some p →
      json_loads (String.mk (jsonSliceContent (pyStripList (t.take p))))
        = some (Json.obj fields) →
      objGet fields "name" = some nm → nm.truthy = true →
      objGet fields "arguments" = some args → args.truthy = true →
      extract_spans t = [pyStripList (t.take p)] ∧
      parse_tool_calls (String.mk t) = [⟨nm, args⟩]) := by
  have hpp : ∀ (fields : List (String × Json)) (nm args : Json),
      objGet fields "name" = some nm → nm.truthy = true →
      objGet fields "arguments" = some args → args.truthy = true →
      processParsed (Json.obj fields) = [⟨nm, args⟩] := by
    intro fields nm args hn hnt ha hat
    simp only [processParsed]
    rw [hn]
    simp only [Option.getD_some, hnt, if_true]
    simp only [invocationArgs]
    rw [ha]
    simp only [Option.getD_some, hat, if_true]
  constructor
  · intro t p fields nm args hnc hpos hloads hn hnt ha hat
    have hspans : extract_spans t = [pyStripList (t.drop (p + 11))] := by
      unfold extract_spans
      rw [findCompleteMatches_nil_of_noclose _ _ hnc]
      rw [if_neg (by simp), if_pos (openPositions_contains hpos), hpos]
      rfl
    refine ⟨hspans, ?_⟩
    unfold parse_tool_calls
    rw [show (String.mk t).data = t from rfl, hspans]
    simp only [List.foldl_cons, List.foldl_nil, List.nil_append]
    unfold process_span
    rw [hloads]
    exact hpp fields nm args hn hnt ha hat
  · intro t p fields nm args hno hp hloads hn hnt ha hat
    have hspans : extract_spans t = [pyStripList (t.take p)] := by
      unfold extract_spans
      rw [findCompleteMatches_nil_of_noopen _ _ hno]
      rw [if_neg (by simp), if_neg (by simp [hno]),
        if_pos (by simp [containsSub, hp]), hp]
    refine ⟨hspans, ?_⟩
    unfold parse_tool_calls
    rw [show (String.mk t).data = t from rfl, hspans]
    simp only [List.foldl_cons, List.foldl_nil, List.nil_append]
    unfold process_span
    rw [hloads]
    exact hpp fields nm args hn hnt ha hat

/-- Concrete instantiation of C6: an unclosed opening tag and a closing
tag without an opening tag both still yield the invoked ToolCall. -/
theorem C6_missing_delimiter_fallback_witness :
    parse_tool_calls "pre <tool_call>\x7b\"name\": \"t\", \"arguments\": \x7b\"a\": 1\x7d\x7d oops"
      = [⟨Json.str "t", Json.obj [("a", Json.num 1 0)]⟩] ∧
    parse_tool_calls "\x7b\"name\": \"t2\", \"arguments\": \x7b\"b\": 2\x7d\x7d</tool_call> post"
      = [⟨Json.str "t2", Json.obj [("b", Json.num 2 0)]⟩] := by
  constructor
  · exact (C6_missing_delimiter_fallback.1
      "pre <tool_call>\x7b\"name\": \"t\", \"arguments\": \x7b\"a\": 1\x7d\x7d oops".data 4
      [("name", Json.str "t"), ("arguments", Json.obj [("a", Json.num 1 0)])]
      (Json.str "t") (Json.obj [("a", Json.num 1 0)])
      rfl rfl rfl rfl rfl rfl rfl).2
  · exact (C6_missing_delimiter_fallback.2
      "\x7b\"name\": \"t2\", \"arguments\": \x7b\"b\": 2\x7d\x7d</tool_call> post".data 37
      [("name", Json.str "t2"), ("arguments", Json.obj [("b", Json.num 2 0)])]
      (Json.str "t2") (Json.obj [("b", Json.num 2 0)])
      rfl rfl rfl rfl rfl rfl rfl).2

/-! ### The bracket-depth scan -/

/-- Scanner state as the specification describes it: bracket depth,
whether the cursor is inside a quoted string, and whether the previous
character was an unconsumed backslash escape. -/
structure ScanState where
  depth : Int
  inString : Bool
  escaped : Bool

/-- One character step of the scan, written from the specification's
description (spec 4.1): escapes consume the next character, an unescaped
quote toggles the in-string flag, and brackets change the depth only
outside strings. -/
def specStep (st : ScanState) (c : Char) : ScanState :=
  if st.escaped then { st with escaped := false }
  else if c = '\\' then { st with escaped := true }
  else if c = '"' then { st with inString := !st.inString }
  else if !st.inString && (c = '{' || c = '[') then { st with depth := st.depth + 1 }
  else if !st.inString && (c = '}' || c = ']') then { st with depth := st.depth - 1 }
  else st

/-- Specification-side scan (spec 4.1): step through the characters and
stop one past the first character at which the bracket depth returns to
zero (from positive); `none` when it never does. -/
def specScan : ScanState → List Char → Nat → Option Nat
  | _, [], _ => none
  | st, c :: rest, i =>
    let st2 := specStep st c
    if st2.depth = 0 ∧ 0 < st.depth then some (i + 1)
    else specScan st2 rest (i + 1)

theorem scanLoop_eq_specScan : ∀ (l : List Char) (count : Int) (inStr esc : Bool)
    (i : Nat), scanLoop l count inStr esc i = specScan ⟨count, inStr, esc⟩ l i := by
  intro l
  induction l with
  | nil => intro count inStr esc i; rfl
  | cons c rest ih =>
    intro count inStr esc i
    cases esc with
    | true =>
      show scanLoop rest count inStr false (i + 1)
        = if count = 0 ∧ 0 < count then some (i + 1)
          else specScan ⟨count, inStr, false⟩ rest (i + 1)
      rw [if_neg (by omega)]
      exact ih count inStr false (i + 1)
    | false =>
      by_cases hbs : c = '\\'
      · subst hbs
        show scanLoop rest count inStr true (i + 1)
          = if count = 0 ∧ 0 < count then some (i + 1)
            else specScan ⟨count, inStr, true⟩ rest (i + 1)
        rw [if_neg (by omega)]
        exact ih count inStr true (i + 1)
      · by_cases hq : c = '"'
        · subst hq
          show scanLoop rest count (!inStr) false (i + 1)
            = if count = 0 ∧ 0 < count then some (i + 1)
              else specScan ⟨count, !inStr, false⟩ rest (i + 1)
          rw [if_neg (by omega)]
          exact ih count (!inStr) false (i + 1)
        · have hL : scanLoop (c :: rest) count inStr false i
              = if !inStr && (c = '{' || c = '[') then
                  scanLoop rest (count + 1) inStr false (i + 1)
                else if !inStr && (c = '}' || c = ']') then
                  if count - 1 = 0 then some (i + 1)
                  else scanLoop rest (count - 1) inStr false (i + 1)
                else scanLoop rest count inStr false (i + 1) := by
            simp [scanLoop, hbs, hq]
          have hR : specStep ⟨count, inStr, false⟩ c
              = if !inStr && (c = '{' || c = '[') then ⟨count + 1, inStr, false⟩
                else if !inStr && (c = '}' || c = ']') then ⟨count - 1, inStr, false⟩
                else ⟨count, inStr, false⟩ := by
            simp only [specStep]
            rw [if_neg (by exact Bool.false_ne_true), if_neg hbs, if_neg hq]
          rw [hL, show specScan ⟨count, inStr, false⟩ (c :: rest) i
              = (if (specStep ⟨count, inStr, false⟩ c).depth = 0 ∧ 0 < count then
                  some (i + 1)
                 else specScan (specStep ⟨count, inStr, false⟩ c) rest (i + 1))
              from rfl, hR]
          by_cases hbr : (!inStr && (c = '{' || c = '[')) = true
          · rw [if_pos hbr, if_pos hbr]
            dsimp only
            rw [if_neg (by omega)]
            exact ih (count + 1) inStr false (i + 1)
          · rw [if_neg hbr, if_neg hbr]
            by_cases hbc : (!inStr && (c = '}' || c = ']')) = true
            · rw [if_pos hbc, if_pos hbc]
              dsimp only
              by_cases hz : count - 1 = 0
              · rw [if_pos hz, if_pos ⟨hz, by omega⟩]
              · rw [if_neg hz, if_neg (fun hcc => hz hcc.1)]
                exact ih (count - 1) inStr false (i + 1)
            · rw [if_neg hbc, if_neg hbc]
              dsimp only
              rw [if_neg (by omega)]
              exact ih count inStr false (i + 1)

theorem scanLoop_lt : ∀ (l : List Char) (count : Int) (inStr esc : Bool)
    (i e : Nat), scanLoop l count inStr esc i = some e → i < e := by
  intro l
  induction l with
  | nil => intro count inStr esc i e h; cases h
  | cons c rest ih =>
    intro count inStr esc i e h
    simp only [scanLoop] at h
    split_ifs at h <;>
      first
      | (injection h with h2; omega)
      | exact Nat.lt_of_succ_lt (ih _ _ _ _ _ h)

/-- Claim C7.  The JSON-payload scan starts at the first bracket of the
stripped span and bracket-counts with string/escape tracking: the
source's loop (`scanLoop`) computes exactly the specification's
state-machine scan (`specScan`), which stops precisely where the depth
returns to zero; characters inside a string literal never change the
depth; and when there is no bracket, or the brackets never rebalance,
the raw stripped span is used verbatim as the payload. -/
theorem C7_bracket_scan :
    (∀ span : List Char,
      (firstBracketIdx (pyStripList span) = none →
        jsonSliceContent span = pyStripList span) ∧
      (∀ st, firstBracketIdx (pyStripList span) = some st →
        (scanLoop ((pyStripList span).drop st) 0 false false st = none →
          jsonSliceContent span = pyStripList span) ∧
        (∀ e, scanLoop ((pyStripList span).drop st) 0 false false st = some e →
          st < e ∧
          jsonSliceContent span = ((pyStripList span).take e).drop st))) ∧
    (∀ (l : List Char) (count : Int) (inStr esc : Bool) (i : Nat),
      scanLoop l count inStr esc i = specScan ⟨count, inStr, esc⟩ l i) ∧
    (∀ (st : ScanState) (c : Char), st.inString = true → st.escaped = false →
      c ≠ '"' → c ≠ '\\' →
      (specStep st c).depth = st.depth ∧ (specStep st c).inString = true) := by
  refine ⟨?_, scanLoop_eq_specScan, ?_⟩
  · intro span
    constructor
    · intro hb
      simp only [jsonSliceContent]
      rw [hb]
    · intro st hb
      constructor
      · intro hscan
        simp only [jsonSliceContent]
        rw [hb]
        dsimp only
        rw [hscan]
      · intro e hscan
        have hlt : st < e := scanLoop_lt _ _ _ _ _ _ hscan
        refine ⟨hlt, ?_⟩
        simp only [jsonSliceContent]
        rw [hb]
        dsimp only
        rw [hscan]
        dsimp only
        rw [if_pos hlt]
  · intro st c hin hesc hq hbs
    unfold specStep
    rw [if_neg (by rw [hesc]; exact Bool.false_ne_true), if_neg hbs, if_neg hq,
      if_neg (by simp [hin]), if_neg (by simp [hin])]
    exact ⟨rfl, hin⟩

/-- Concrete instantiation of C7: braces and an escaped quote inside
string literals do not perturb the scan, and the payload ends exactly at
the matching close bracket, with trailing commentary discarded. -/
theorem C7_bracket_scan_witness :
    jsonSliceContent ("\x7b\"a\": \"\x7d\x7b\", \"b\": \"\\\" \x7d\"\x7d trailing".data)
      = "\x7b\"a\": \"\x7d\x7b\", \"b\": \"\\\" \x7d\"\x7d".data := by
  have h := ((C7_bracket_scan.1 ("\x7b\"a\": \"\x7d\x7b\", \"b\": \"\\\" \x7d\"\x7d trailing".data)).2
    0 rfl).2 24 rfl
  rw [h.2]
  rfl

/-! ## Tool Dispatcher (`execute_tool_call`, lines 947-1157) -/

/-- A tool definition row as fetched by `fetch_tools_from_database`
(lines 484-535): the columns used by the dispatcher and the orchestrator.
`method` is a nullable text column. -/
structure ToolDef where
  name : String
  typeName : String
  endpoint : String
  method : Option String
  description : String
  parameters : Json
deriving Repr

/-- The result dict of `execute_tool_call`: `success`, `data` (Python
`None` is `Json.null`), and the `error` key (absent on success). -/
structure ToolResult where
  success : Bool
  data : Json
  error : Option Json
deriving Repr

/-- An HTTP response as seen by the dispatcher: status code, the
`content-type` header, and the body text. -/
structure HttpResponse where
  status : Nat
  contentType : String
  body : String
deriving Repr

/-- `response.ok`: status below 400. -/
def HttpResponse.ok (r : HttpResponse) : Bool :=
  r.status < 400

/-- The outcome of one outbound HTTP request: a response, or a raised
transport-level exception carrying its message. -/
inductive HttpOutcome where
  | response (r : HttpResponse)
  | exception (msg : String)
deriving Repr

/-- Python `==` between a `str` and a JSON value: true only for an equal
string (no JSON value of another type compares equal to a string). -/
def pyEqStrJson (s : String) (j : Json) : Bool :=
  match j with
  | .str s2 => s = s2
  | _ => false

/-- Python `str.upper()` (ASCII). -/
def pyUpper (s : String) : String :=
  String.mk (s.data.map Char.toUpper)

/-- `(tool.get("method") or "GET")`: Python `or` falls through on `None`
and the empty string. -/
def methodOrGet (m : Option String) : String :=
  match m with
  | some s => if s = "" then "GET" else s
  | none => "GET"

/-- Python `dict.items()` — raises `AttributeError` on a non-dict. -/
def pyItems (j : Json) : Except String (List (String × Json)) :=
  match j with
  | .obj fs => Except.ok fs
  | _ => Except.error "AttributeError: object has no attribute items"

/-- `",".join(str(v) for v in value)` (line 996). -/
def joinComma (items : List Json) : String :=
  ",".intercalate (items.map Json.pyStr)

/-- Tool resolution (lines 961-966): the first definition whose `name`
or `typeName` equals the ToolCall's name. -/
def findTool (tools : List ToolDef) (nm : Json) : Option ToolDef :=
  tools.find? (fun t => pyEqStrJson t.name nm || pyEqStrJson t.typeName nm)

/-- The request parameters built from the normalized arguments (lines
992-1005): skip `None`/`""` values, join list values into a
comma-separated string for GET, and always add the Telegram user id when
present. -/
def buildParams (items : List (String × Json)) (method : String)
    (telegram_user_id : Option Int) : List (String × Json) :=
  let params := items.foldl
    (fun acc kv =>
      if isDroppedVal kv.2 then acc
      else
        match kv.2 with
        | Json.arr l =>
            if method = "GET" then objInsert acc kv.1 (Json.str (joinComma l))
            else objInsert acc kv.1 kv.2
        | _ => objInsert acc kv.1 kv.2) []
  match telegram_user_id with
  | some uid => objInsert params "telegramUserId" (Json.num uid 0)
  | none => params

/-- The `or`-chain extracting an error message from a JSON error body
(lines 1119-1124): the first truthy of `error`, `message`, `detail`,
else the raw body text. -/
def errorMessageOf (ed : List (String × Json)) (error_text : String) : Json :=
  let e1 := (objGet ed "error").getD Json.null
  if e1.truthy then e1
  else
    let e2 := (objGet ed "message").getD Json.null
    if e2.truthy then e2
    else
      let e3 := (objGet ed "detail").getD Json.null
      if e3.truthy then e3 else Json.str error_text

/-- The `actual_error_message` of the non-success branch (lines
1113-1127): with a non-empty body, the message extracted from a JSON
object body (a `.get` on a non-object raises and is caught, falling back
to the raw text; so does a parse failure); with an empty body, `None`. -/
def httpErrorActual (r : HttpResponse) : Option Json :=
  if r.body ≠ "" then
    match json_loads r.body with
    | some (Json.obj ed) => some (errorMessageOf ed r.body)
    | some _ => some (Json.str r.body)
    | none => some (Json.str r.body)
  else none

/-- The non-success branch of the dispatcher (lines 1108-1133): a
failure ToolResult whose `data` wraps the best-effort error message as
`{"error": …}` (Python `x or default` on the message). -/
def httpErrorResult (r : HttpResponse) : ToolResult :=
  { success := false
    data := Json.obj [("error",
      (httpErrorActual r).getD (Json.str ("API error: " ++ toString r.status)))]
    error := some ((httpErrorActual r).getD (Json.str r.body)) }

/-- The `try` block of `execute_tool_call` (lines 982-1148), with the
single outbound HTTP request's outcome supplied by the environment; a
thrown exception is an `Except.error` carrying its message.  URL and
header construction (lines 1009-1092) is pure string building with no
effect on the result and is elided; the request itself is `outcome`. -/
def execute_tool_call_inner (tool : ToolDef) (tool_call : ToolCall)
    (telegram_user_id : Option Int) (outcome : HttpOutcome) :
    Except String ToolResult :=
  let method := pyUpper (methodOrGet tool.method)
  match pyItems tool_call.arguments with
  | Except.error e => Except.error e
  | Except.ok items =>
    let _params := buildParams items method telegram_user_id
    match outcome with
    | HttpOutcome.exception e => Except.error e
    | HttpOutcome.response response =>
      if ¬ response.ok then Except.ok (httpErrorResult response)
      else if strStarts "application/json" response.contentType then
        match json_loads response.body with
        | some d => Except.ok ⟨true, d, none⟩
        | none => Except.error "JSONDecodeError"
      else Except.ok ⟨true, Json.obj [("result", Json.str response.body)], none⟩

/-- `execute_tool_call` (lines 947-1157): resolve the tool, then run the
request under the catch-all `except` that converts any exception into a
failure ToolResult. -/
def execute_tool_call (tool_call : ToolCall) (tools : List ToolDef)
    (telegram_user_id : Option Int) (auth_token : Option String)
    (outcome : HttpOutcome) : ToolResult :=
  let _ := auth_token
  match findTool tools tool_call.name with
  | none =>
      { success := false
        data := Json.null
        error := some (Json.str ("Tool \"" ++ tool_call.name.pyStr ++ "\" not found")) }
  | some tool =>
    match execute_tool_call_inner tool tool_call telegram_user_id outcome with
    | Except.ok r => r
    | Except.error e => ⟨false, Json.null, some (Json.str e)⟩

theorem errorMessageOf_truthy (ed : List (String × Json)) (et : String)
    (h : et ≠ "") : (errorMessageOf ed et).truthy = true := by
  simp only [errorMessageOf]
  split_ifs with h1 h2 h3
  exacts [h1, h2, h3, by simp [Json.truthy, h]]

theorem httpErrorActual_truthy {r : HttpResponse} {a : Json}
    (h : httpErrorActual r = some a) : a.truthy = true := by
  unfold httpErrorActual at h
  split at h
  case isTrue hb =>
    split at h <;> injection h with h2 <;> rw [← h2]
    · exact errorMessageOf_truthy _ _ hb
    · simp [Json.truthy, hb]
    · simp [Json.truthy, hb]
  case isFalse hb => cases h

theorem httpErrorResult_spec (r : HttpResponse) :
    (httpErrorResult r).success = false ∧
    ∃ emsg, (httpErrorResult r).data = Json.obj [("error", emsg)] ∧
      emsg.truthy = true := by
  refine ⟨rfl, ?_⟩
  cases hA : httpErrorActual r with
  | some a =>
    refine ⟨a, ?_, httpErrorActual_truthy hA⟩
    show Json.obj [("error",
        (httpErrorActual r).getD (Json.str ("API error: " ++ toString r.status)))]
      = Json.obj [("error", a)]
    rw [hA]
    rfl
  | none =>
    refine ⟨Json.str ("API error: " ++ toString r.status), ?_, ?_⟩
    · show Json.obj [("error",
          (httpErrorActual r).getD (Json.str ("API error: " ++ toString r.status)))]
        = _
      rw [hA]
      rfl
    · simp only [Json.truthy]
      have hne : ("API error: " ++ toString r.status) ≠ "" := by
        intro hc
        have hd := congrArg String.data hc
        simp [String.data_append] at hd
      simp [hne]

/-- Counterexample to claim C2 as stated: on the unresolvable-tool-name
failure and on the caught-transport-exception failure, the returned
ToolResult's `data` field is null (`None`), not a structured error
payload — only the non-success HTTP status path populates `data`. -/
theorem C2_counterexample :
    (execute_tool_call ⟨Json.str "missing", Json.obj []⟩ [] none none
        (HttpOutcome.response ⟨200, "application/json", "\x7b\x7d"⟩)).success = false ∧
    (execute_tool_call ⟨Json.str "missing", Json.obj []⟩ [] none none
        (HttpOutcome.response ⟨200, "application/json", "\x7b\x7d"⟩)).data = Json.null ∧
    (execute_tool_call ⟨Json.str "t", Json.obj []⟩
        [⟨"t", "t", "http://x", some "POST", "", Json.obj []⟩] none none
        (HttpOutcome.exception "Connection timed out")).success = false ∧
    (execute_tool_call ⟨Json.str "t", Json.obj []⟩
        [⟨"t", "t", "http://x", some "POST", "", Json.obj []⟩] none none
        (HttpOutcome.exception "Connection timed out")).data = Json.null :=
  ⟨rfl, rfl, rfl, rfl⟩

/-- Claim C2 (amended).  On failure, the ToolResult's `data` carries a
structured (truthy) error payload `{"error": …}` only for the
non-success HTTP status cause; for an unresolvable tool name and for a
caught transport-level exception, `data` is null and the error message
is carried only in the `error` field. -/
theorem C2_failure_payloads :
    (∀ (tc : ToolCall) (tools : List ToolDef) (uid : Option Int)
        (tok : Option String) (outcome : HttpOutcome),
      findTool tools tc.name = none →
      (execute_tool_call tc tools uid tok outcome).success = false ∧
      (execute_tool_call tc tools uid tok outcome).data = Json.null) ∧
    (∀ (tc : ToolCall) (tools : List ToolDef) (uid : Option Int)
        (tok : Option String) (tool : ToolDef) (argfs : List (String × Json))
        (e : String),
      findTool tools tc.name = some tool → tc.arguments = Json.obj argfs →
      execute_tool_call tc tools uid tok (HttpOutcome.exception e)
        = ⟨false, Json.null, some (Json.str e)⟩) ∧
    (∀ (tc : ToolCall) (tools : List ToolDef) (uid : Option Int)
        (tok : Option String) (tool : ToolDef) (argfs : List (String × Json))
        (r : HttpResponse),
      findTool tools tc.name = some tool → tc.arguments = Json.obj argfs →
      r.ok = false →
      (execute_tool_call tc tools uid tok (HttpOutcome.response r)).success
          = false ∧
      ∃ emsg, (execute_tool_call tc tools uid tok (HttpOutcome.response r)).data
          = Json.obj [("error", emsg)] ∧ emsg.truthy = true) := by
  refine ⟨?_, ?_, ?_⟩
  · intro tc tools uid tok outcome hfind
    unfold execute_tool_call
    rw [hfind]
    exact ⟨rfl, rfl⟩
  · intro tc tools uid tok tool argfs e hfind hargs
    unfold execute_tool_call
    rw [hfind]
    dsimp only
    have hinner : execute_tool_call_inner tool tc uid (HttpOutcome.exception e)
        = Except.error e := by
      unfold execute_tool_call_inner
      rw [hargs]
      rfl
    rw [hinner]
  · intro tc tools uid tok tool argfs r hfind hargs hok
    have hinner : execute_tool_call_inner tool tc uid (HttpOutcome.response r)
        = Except.ok (httpErrorResult r) := by
      unfold execute_tool_call_inner
      rw [hargs]
      show (match (Except.ok argfs : Except String (List (String × Json))) with
        | Except.error e => Except.error e
        | Except.ok items =>
          if ¬ r.ok then Except.ok (httpErrorResult r)
          else if strStarts "application/json" r.contentType then
            match json_loads r.body with
            | some d => Except.ok ⟨true, d, none⟩
            | none => Except.error "JSONDecodeError"
          else Except.ok ⟨true, Json.obj [("result", Json.str r.body)], none⟩)
        = Except.ok (httpErrorResult r)
      dsimp only
      rw [if_pos (by simp [hok])]
    unfold execute_tool_call
    rw [hfind]
    dsimp only
    rw [hinner]
    exact httpErrorResult_spec r

/-- Concrete instantiation of the amended C2 theorem: a 500 response
with a JSON error body yields a failure whose `data` carries the
structured payload, while tool-not-found and a transport exception leave
`data` null. -/
theorem C2_failure_payloads_witness :
    (execute_tool_call ⟨Json.str "missing", Json.obj []⟩ [] none none
        (HttpOutcome.response ⟨200, "application/json", "\x7b\x7d"⟩)).data = Json.null ∧
    execute_tool_call ⟨Json.str "t", Json.obj []⟩
        [⟨"t", "t", "http://x", some "POST", "", Json.obj []⟩] none none
        (HttpOutcome.exception "Connection timed out")
      = ⟨false, Json.null, some (Json.str "Connection timed out")⟩ ∧
    (execute_tool_call ⟨Json.str "t", Json.obj []⟩
        [⟨"t", "t", "http://x", some "POST", "", Json.obj []⟩] none none
        (HttpOutcome.response ⟨500, "application/json",
          "\x7b\"error\": \"downstream unavailable\"\x7d"⟩)).success = false ∧
    ∃ emsg, (execute_tool_call ⟨Json.str "t", Json.obj []⟩
        [⟨"t", "t", "http://x", some "POST", "", Json.obj []⟩] none none
        (HttpOutcome.response ⟨500, "application/json",
          "\x7b\"error\": \"downstream unavailable\"\x7d"⟩)).data
        = Json.obj [("error", emsg)] ∧ emsg.truthy = true := by
  refine ⟨(C2_failure_payloads.1 ⟨Json.str "missing", Json.obj []⟩ [] none none
      (HttpOutcome.response ⟨200, "application/json", "\x7b\x7d"⟩) rfl).2,
    C2_failure_payloads.2.1 ⟨Json.str "t", Json.obj []⟩
      [⟨"t", "t", "http://x", some "POST", "", Json.obj []⟩] none none
      ⟨"t", "t", "http://x", some "POST", "", Json.obj []⟩ [] "Connection timed out"
      rfl rfl, ?_, ?_⟩
  · exact (C2_failure_payloads.2.2 ⟨Json.str "t", Json.obj []⟩
      [⟨"t", "t", "http://x", some "POST", "", Json.obj []⟩] none none
      ⟨"t", "t", "http://x", some "POST", "", Json.obj []⟩ []
      ⟨500, "application/json", "\x7b\"error\": \"downstream unavailable\"\x7d"⟩
      rfl rfl rfl).1
  · exact (C2_failure_payloads.2.2 ⟨Json.str "t", Json.obj []⟩
      [⟨"t", "t", "http://x", some "POST", "", Json.obj []⟩] none none
      ⟨"t", "t", "http://x", some "POST", "", Json.obj []⟩ []
      ⟨500, "application/json", "\x7b\"error\": \"downstream unavailable\"\x7d"⟩
      rfl rfl rfl).2

/-- Claim C3.  The Dispatcher always returns a ToolResult value and
never propagates an exception: when no tool definition's name or alias
matches, it returns the "tool not found" failure value rather than
raising; a transport-level exception during the request is converted to
a failure value; and even an internal error (non-mapping arguments,
whose `.items()` raises inside the `try`) is converted to a failure
value. -/
theorem C3_dispatcher_no_raise :
    (∀ (tc : ToolCall) (tools : List ToolDef) (uid : Option Int)
        (tok : Option String) (outcome : HttpOutcome),
      findTool tools tc.name = none →
      execute_tool_call tc tools uid tok outcome
        = ⟨false, Json.null,
            some (Json.str ("Tool \"" ++ tc.name.pyStr ++ "\" not found"))⟩) ∧
    (∀ (tc : ToolCall) (tools : List ToolDef) (uid : Option Int)
        (tok : Option String) (tool : ToolDef) (argfs : List (String × Json))
        (e : String),
      findTool tools tc.name = some tool → tc.arguments = Json.obj argfs →
      execute_tool_call tc tools uid tok (HttpOutcome.exception e)
        = ⟨false, Json.null, some (Json.str e)⟩) ∧
    (∀ (tc : ToolCall) (tools : List ToolDef) (uid : Option Int)
        (tok : Option String) (tool : ToolDef) (outcome : HttpOutcome),
      findTool tools tc.name = some tool →
      (∀ argfs : List (String × Json), tc.arguments ≠ Json.obj argfs) →
      ∃ msg, execute_tool_call tc tools uid tok outcome
        = ⟨false, Json.null, some (Json.str msg)⟩) := by
  refine ⟨?_, ?_, ?_⟩
  · intro tc tools uid tok outcome hfind
    unfold execute_tool_call
    rw [hfind]
  · intro tc tools uid tok tool argfs e hfind hargs
    exact C2_failure_payloads.2.1 tc tools uid tok tool argfs e hfind hargs
  · intro tc tools uid tok tool outcome hfind hargs
    have hitems : pyItems tc.arguments
        = Except.error "AttributeError: object has no attribute items" := by
      cases ha : tc.arguments with
      | obj fs => exact absurd ha (hargs fs)
      | null => rfl
      | bool b => rfl
      | num m e => rfl
      | str s => rfl
      | arr l => rfl
    refine ⟨"AttributeError: object has no attribute items", ?_⟩
    unfold execute_tool_call
    rw [hfind]
    dsimp only
    have hinner : execute_tool_call_inner tool tc uid outcome
        = Except.error "AttributeError: object has no attribute items" := by
      unfold execute_tool_call_inner
      rw [hitems]
    rw [hinner]

/-- Concrete instantiation of C3: an unknown tool name returns the
"tool not found" failure value. -/
theorem C3_dispatcher_no_raise_witness :
    execute_tool_call ⟨Json.str "nope", Json.obj []⟩
        [⟨"t", "t", "http://x", some "POST", "", Json.obj []⟩] none none
        (HttpOutcome.response ⟨200, "application/json", "\x7b\x7d"⟩)
      = ⟨false, Json.null, some (Json.str "Tool \"nope\" not found")⟩ :=
  C3_dispatcher_no_raise.1 ⟨Json.str "nope", Json.obj []⟩
    [⟨"t", "t", "http://x", some "POST", "", Json.obj []⟩] none none
    (HttpOutcome.response ⟨200, "application/json", "\x7b\x7d"⟩) rfl

/-! ## Inference Client (`call_modal_inference`, lines 1229-1367) -/

/-- The result dict of `call_modal_inference`: `text`, `tokens`, and an
`error` key present only on failure. -/
structure InfResult where
  text : Json
  tokens : Json
  error : Option String
deriving Repr

/-- The outcome of one inference request: an HTTP response, or one of the
three caught exception classes (timeout, request error, anything else). -/
inductive InfOutcome where
  | response (r : HttpResponse)
  | timeout
  | requestError (msg : String)
  | unexpectedError (msg : String)
deriving Repr

/-- `call_modal_inference` (lines 1229-1367): the request payload is pure
data sent to the endpoint (elided; the endpoint's behaviour is the
`outcome`).  The whole request/parse/extract block sits in one `try`
whose `except Exception` (lines 1361-1367) converts any raise into an
`"Unexpected error: ..."` result dict, so the function always returns a
dict and never propagates: a non-object 200 JSON body raises
`AttributeError` at the `data.keys()` log call (line 1313, before the
`"error" in data` test), and a truthy extracted text that is neither a
string nor a list raises `TypeError` at the `text[:100]` log slice
(line 1340); both are caught. -/
def call_modal_inference (outcome : InfOutcome) : InfResult :=
  match outcome with
  | InfOutcome.timeout =>
      ⟨Json.str "", Json.num 0 0,
        some "Request timeout - Modal endpoint took too long to respond"⟩
  | InfOutcome.requestError e =>
      ⟨Json.str "", Json.num 0 0, some ("Failed to connect to Modal: " ++ e)⟩
  | InfOutcome.unexpectedError e =>
      ⟨Json.str "", Json.num 0 0, some ("Unexpected error: " ++ e)⟩
  | InfOutcome.response r =>
    if ¬ r.ok then
      ⟨Json.str "", Json.num 0 0,
        some ("Modal API error: " ++ toString r.status ++ " - " ++ r.body)⟩
    else
      match json_loads r.body with
      | none =>
          ⟨Json.str "", Json.num 0 0,
            some "Invalid JSON response from Modal: JSONDecodeError"⟩
      | some data =>
        match data with
        | Json.obj fs =>
          if (objGet fs "error").isSome then
            ⟨Json.str "", Json.num 0 0,
              some ("Modal API returned error: "
                ++ ((objGet fs "error").getD (Json.str "Unknown error")).pyStr)⟩
          else
            let tokens := (objGet fs "tokens").getD (Json.num 0 0)
            let text0 := (objGet fs "text").getD (Json.str "")
            let text1 :=
              if text0.truthy then text0
              else
                let r1 := (objGet fs "response").getD (Json.str "")
                if r1.truthy then r1
                else
                  let r2 := (objGet fs "output").getD (Json.str "")
                  if r2.truthy then r2
                  else (objGet fs "generated_text").getD (Json.str "")
            let text2 := if text1.truthy then text1 else Json.str "No response generated"
            match text2 with
            | Json.str _ => ⟨text2, tokens, none⟩
            | Json.arr _ => ⟨text2, tokens, none⟩
            | _ =>
                ⟨Json.str "", Json.num 0 0,
                  some "Unexpected error: TypeError: object is not subscriptable"⟩
        | _ =>
            ⟨Json.str "", Json.num 0 0,
              some "Unexpected error: AttributeError: keys"⟩

example :
    call_modal_inference (InfOutcome.response ⟨200, "application/json",
        "\x7b\"text\": \"hello\", \"tokens\": 7\x7d"⟩)
      = ⟨Json.str "hello", Json.num 7 0, none⟩ := rfl

example :
    call_modal_inference (InfOutcome.response ⟨200, "application/json",
        "\x7b\"text\": \"\", \"tokens\": 1\x7d"⟩)
      = ⟨Json.str "No response generated", Json.num 1 0, none⟩ := rfl

example :
    call_modal_inference (InfOutcome.response ⟨200, "application/json", "[1]"⟩)
      = ⟨Json.str "", Json.num 0 0,
         some "Unexpected error: AttributeError: keys"⟩ := rfl

example :
    call_modal_inference (InfOutcome.response ⟨200, "application/json",
        "\x7b\"text\": 5\x7d"⟩)
      = ⟨Json.str "", Json.num 0 0,
         some "Unexpected error: TypeError: object is not subscriptable"⟩ := rfl

/-! ## Turn Orchestrator (`handle_message`, message-processing core,
lines 1806-2241)

The turn is modelled from the `MESSAGE SAVING ORDER` region onward; the
preceding bot lookup, configuration and prompt construction (lines
1695-1804) only produce the values supplied here as the environment.
Prompt strings, token budgets and outbound replies have no effect on
what is persisted and are elided; each `save_message_to_db` call appends
one message to the trace. -/

/-- One persisted message: the arguments of `save_message_to_db` that
the ordering contract speaks about. -/
structure SavedMessage where
  role : String
  content : String
  isToolCall : Bool
  isToolResponse : Bool
deriving Repr

/-- One row of the fetched conversation history. -/
structure HistMsg where
  role : String
  content : String
deriving Repr

/-- The environment of one turn: the values produced before line 1806
and the outcomes of the turn's external calls. -/
structure TurnEnv where
  text : String
  user_id : Int
  bot_username : String
  tools : List ToolDef
  history : List HistMsg
  infOutcome1 : InfOutcome
  infOutcome2 : InfOutcome
  toolOutcome : HttpOutcome
  authToken : Option String

/-- `format_tool_call_for_training` (lines 1160-1162). -/
def format_tool_call_for_training (tc : ToolCall) : String :=
  "<tool_call>" ++ (Json.obj [("name", tc.name), ("arguments", tc.arguments)]).dumps
    ++ "</tool_call>"

/-- `format_tool_response` (lines 1165-1167); the tool name parameter is
unused by the source as well. -/
def format_tool_response (tool_name : Json) (result : Json) : String :=
  let _ := tool_name
  "<tool_response>" ++ result.dumps ++ "</tool_response>"

/-- The empty-response notice (line 1875). -/
def emptyResponseNotice : String :=
  "⚠️ The model generated an empty response. Please try rephrasing your message."

/-- The inference-failure notice (line 1850). -/
def inferenceErrorNotice (err : String) : String :=
  "❌ Sorry, I encountered an error:\n\n`" ++ err
    ++ "`\n\nPlease try again later or check your Modal endpoint."

/-- The catch-all failure notice (line 2198). -/
def unexpectedErrorNotice (err : String) : String :=
  "❌ An unexpected error occurred:\n\n`" ++ err ++ "`\n\nPlease try again later."

/-- Truthiness of `result.get("error")` for a result dict whose `error`
key holds a string when present. -/
def errTruthy : Option String → Bool
  | some s => s ≠ ""
  | none => false

/-- Iterating `required_params` (line 1950): lists, strings (characters)
and dicts (keys) iterate; other values raise `TypeError`. -/
def requiredElems : Json → Except String (List Json)
  | Json.arr l => Except.ok l
  | Json.str s => Except.ok (s.data.map (fun c => Json.str (String.mk [c])))
  | Json.obj fs => Except.ok (fs.map (fun kv => Json.str kv.1))
  | _ => Except.error "TypeError: object is not iterable"

/-- The parameter-extraction analysis block (lines 1926-1998).  It only
logs, but its dict/list operations can raise: a non-object parameter
schema at `.get` (line 1942), non-mapping arguments at `.keys()` (line
1944), a non-iterable `required` (line 1950), and `.lower()` on a
non-string missing parameter when history is non-empty (line 1961); a
non-string `required` element always counts as missing because the
membership test short-circuits before `arguments.get`. -/
def analysisBlock (tooldef : Option ToolDef) (args : Json)
    (history : List HistMsg) : Except String Unit :=
  match tooldef with
  | none => Except.ok ()
  | some tool =>
    let parameters :=
      match tool.parameters with
      | Json.str s => (json_loads s).getD (Json.obj [])
      | p => p
    match parameters with
    | Json.obj parfs =>
      match args with
      | Json.obj argfs =>
        let provided := argfs.map Prod.fst
        match requiredElems ((objGet parfs "required").getD (Json.arr [])) with
        | Except.error e => Except.error e
        | Except.ok reqs =>
          let missing := reqs.filter (fun p =>
            match p with
            | Json.str ps =>
                ¬ (provided.contains ps) || ¬ ((objGet argfs ps).getD Json.null).truthy
            | _ => true)
          if !missing.isEmpty && !history.isEmpty then
            if missing.all (fun p => match p with | Json.str _ => true | _ => false)
            then Except.ok ()
            else Except.error "AttributeError: object has no attribute lower"
          else Except.ok ()
      | _ => Except.error "AttributeError: object has no attribute keys"
    | _ => Except.error "AttributeError: object has no attribute get"

/-- The persisted tool-response payload (lines 2044-2047). -/
def response_data_of (tool_result : ToolResult) : Json :=
  if tool_result.success then tool_result.data
  else Json.obj [("success", Json.bool false),
    ("error", (tool_result.error).getD (Json.str "An unknown error occurred"))]

/-- The auth-token capture (lines 2050-2054): on success, read `token`
out of the response payload (raising on a non-mapping payload), and log
its length (raising on a truthy token with no `len`); the database
upsert itself catches its own errors and is elided. -/
def tokenStep (tool_result : ToolResult) (response_data : Json)
    (user_id : Int) (bot_username : String) : Except String Unit :=
  if tool_result.success = true ∧ user_id ≠ 0 ∧ bot_username ≠ "" then
    match response_data with
    | Json.obj fs =>
      let token := (objGet fs "token").getD Json.null
      if token.truthy then
        match token with
        | Json.num _ _ => Except.error "TypeError: object has no len"
        | Json.bool _ => Except.error "TypeError: object has no len"
        | _ => Except.ok ()
      else Except.ok ()
    | _ => Except.error "AttributeError: object has no attribute get"
  else Except.ok ()

/-- The final-response computation after the follow-up inference (lines
2137-2145): the templated fallback on a follow-up error, otherwise
`follow_up_result.get("text", "").strip()` (raising on a non-string). -/
def finalResponseStep (follow_up : InfResult) (tc_name : Json) (tool_data : Json) :
    Except String String :=
  if errTruthy follow_up.error then
    Except.ok ("I executed the tool '" ++ tc_name.pyStr
      ++ "' and got these results:\n\n" ++ tool_data.dumps)
  else
    match follow_up.text with
    | Json.str s => Except.ok (pyStrip s)
    | _ => Except.error "AttributeError: strip"

/-- The body of the `try` block from the STEP-1 save onward (lines
1812-2194): the ordered message writes and, when an operation raises,
the writes made before the exception.  The error-message and
`results_data` computations (lines 2074-2100) only feed the follow-up
prompt and cannot raise, so they are elided along with the prompts. -/
def turn_body (env : TurnEnv) : List SavedMessage × Option String :=
  let t0 : List SavedMessage := [⟨"user", env.text, false, false⟩]
  let result := call_modal_inference env.infOutcome1
  if errTruthy result.error then
      (t0 ++ [⟨"assistant", inferenceErrorNotice ((result.error).getD ""),
        false, false⟩], none)
    else if ¬ result.text.truthy then
      (t0 ++ [⟨"assistant", emptyResponseNotice, false, false⟩], none)
    else
      match result.text with
      | Json.str response_text =>
        if pyStrip response_text = "" then
          (t0 ++ [⟨"assistant", emptyResponseNotice, false, false⟩], none)
        else if contains_tool_call response_text && ¬ env.tools.isEmpty then
          match parse_tool_calls response_text with
          | [] => (t0 ++ [⟨"assistant", response_text, false, false⟩], none)
          | tool_call :: _ =>
            match analysisBlock (findTool env.tools tool_call.name)
                tool_call.arguments env.history with
            | Except.error e => (t0, some e)
            | Except.ok _ =>
              match tool_call.arguments with
              | Json.obj argfs =>
                let normalized_args :=
                  normalize_tool_arguments tool_call.name.pyStr argfs
                let tc2 : ToolCall := ⟨tool_call.name, Json.obj normalized_args⟩
                let t2 := t0 ++ [⟨"assistant", format_tool_call_for_training tc2,
                  true, false⟩]
                let auth_token :=
                  if env.user_id ≠ 0 ∧ env.bot_username ≠ "" then env.authToken
                  else none
                let tool_result := execute_tool_call tc2 env.tools
                  (some env.user_id) auth_token env.toolOutcome
                let response_data := response_data_of tool_result
                match tokenStep tool_result response_data env.user_id
                    env.bot_username with
                | Except.error e => (t2, some e)
                | Except.ok _ =>
                  let t3 := t2 ++ [⟨"system",
                    format_tool_response tc2.name response_data, false, true⟩]
                  let follow_up := call_modal_inference env.infOutcome2
                  match finalResponseStep follow_up tc2.name tool_result.data with
                  | Except.error e => (t3, some e)
                  | Except.ok final_response =>
                      (t3 ++ [⟨"assistant", final_response, false, false⟩], none)
              | _ => (t0, some "AttributeError: object has no attribute items")
        else (t0 ++ [⟨"assistant", response_text, false, false⟩], none)
      | _ => (t0, some "AttributeError: strip")

/-- `handle_message` from the STEP-1 save onward, with the catch-all
handler (lines 2196-2240) that persists the failure notice (the
handler's own bot re-lookup succeeds in the modelled environment, as it
did before line 1806). -/
def handle_message (env : TurnEnv) : List SavedMessage :=
  match turn_body env with
  | (trace, none) => trace
  | (trace, some e) =>
      trace ++ [⟨"assistant", unexpectedErrorNotice e, false, false⟩]

example :
    (handle_message ⟨"hi", 1, "bot",
        [⟨"t", "t", "http://x", some "POST", "", Json.obj []⟩], [],
        InfOutcome.response ⟨200, "application/json",
          "\x7b\"text\": \"<tool_call>\x7b\\\"name\\\": \\\"t\\\", \\\"arguments\\\": \x7b\\\"a\\\": \\\"1\\\"\x7d\x7d</tool_call>\", \"tokens\": 5\x7d"⟩,
        InfOutcome.response ⟨200, "application/json",
          "\x7b\"text\": \"done\", \"tokens\": 2\x7d"⟩,
        HttpOutcome.response ⟨200, "application/json", "\x7b\"ok\": true\x7d"⟩,
        none⟩).map (fun m => (m.role, m.isToolCall, m.isToolResponse))
      = [("user", false, false), ("assistant", true, false),
         ("system", false, true), ("assistant", false, false)] := rfl

/-- Any exception-free run of the turn body persists either the
two-message or the four-message sequence, in order. -/
theorem turn_body_shape (env : TurnEnv) (tr : List SavedMessage)
    (exc : Option String) (heq : turn_body env = (tr, exc))
    (hnone : exc = none) :
    tr.map (fun m => (m.role, m.isToolCall, m.isToolResponse))
      = [("user", false, false), ("assistant", false, false)]
    ∨ tr.map (fun m => (m.role, m.isToolCall, m.isToolResponse))
      = [("user", false, false), ("assistant", true, false),
         ("system", false, true), ("assistant", false, false)] := by
  simp only [turn_body] at heq
  repeat' split at heq
  all_goals injection heq with h1 h2
  all_goals subst h1
  all_goals subst h2
  all_goals
    first
      | exact Option.noConfusion hnone
      | exact Or.inl rfl
      | exact Or.inr rfl

/-- C1 counterexample: a response whose tool call is detected and parses
(here with the non-mapping arguments value `"oops"`), yet the turn
persists only two messages — the user message and the catch-all error
message, neither flagged as tool call or tool response — because
argument normalization raises before the STEP-2 save. -/
theorem C1_counterexample :
    contains_tool_call
        "<tool_call>\x7b\"name\": \"t\", \"arguments\": \"oops\"\x7d</tool_call>"
      = true
    ∧ parse_tool_calls
        "<tool_call>\x7b\"name\": \"t\", \"arguments\": \"oops\"\x7d</tool_call>"
      = [⟨Json.str "t", Json.str "oops"⟩]
    ∧ (handle_message ⟨"hi", 1, "bot",
          [⟨"other", "other", "http://x", some "GET", "", Json.obj []⟩], [],
          InfOutcome.response ⟨200, "application/json",
            "\x7b\"text\": \"<tool_call>\x7b\\\"name\\\": \\\"t\\\", \\\"arguments\\\": \\\"oops\\\"\x7d</tool_call>\", \"tokens\": 5\x7d"⟩,
          InfOutcome.timeout,
          HttpOutcome.response ⟨200, "application/json", "\x7b\x7d"⟩,
          none⟩).map (fun m => (m.role, m.isToolCall, m.isToolResponse))
      = [("user", false, false), ("assistant", false, false)] :=
  ⟨rfl, rfl, rfl⟩

/-- C1 (amended): every turn whose body completes without an uncaught
exception persists either exactly the two-message sequence
(user, assistant) or exactly the four-message sequence (user,
tool-call with isToolCall, tool-response with role system and
isToolResponse, assistant), in order; a detected-and-parsed tool call
does not by itself guarantee the four-message sequence, since an
exception between the saves truncates the turn (see the
counterexample). -/
theorem C1_message_order (env : TurnEnv)
    (h : (turn_body env).2 = none) :
    (handle_message env).map (fun m => (m.role, m.isToolCall, m.isToolResponse))
      = [("user", false, false), ("assistant", false, false)]
    ∨ (handle_message env).map (fun m => (m.role, m.isToolCall, m.isToolResponse))
      = [("user", false, false), ("assistant", true, false),
         ("system", false, true), ("assistant", false, false)] := by
  have hm : handle_message env = (turn_body env).1 := by
    unfold handle_message
    rcases hp : turn_body env with ⟨tr, exc⟩
    rw [hp] at h
    cases exc with
    | none => rfl
    | some e => exact Option.noConfusion h
  rw [hm]
  exact turn_body_shape env (turn_body env).1 (turn_body env).2 rfl h

/-- Concrete instantiation of C1's amended theorem: a plain-text turn
completes without an exception and persists the two-message sequence. -/
theorem C1_message_order_witness :
    ((turn_body ⟨"hi", 1, "bot", [], [],
        InfOutcome.response ⟨200, "application/json",
          "\x7b\"text\": \"hello\", \"tokens\": 7\x7d"⟩,
        InfOutcome.timeout,
        HttpOutcome.response ⟨200, "application/json", "\x7b\x7d"⟩,
        none⟩).2 = none)
    ∧ ((handle_message ⟨"hi", 1, "bot", [], [],
          InfOutcome.response ⟨200, "application/json",
            "\x7b\"text\": \"hello\", \"tokens\": 7\x7d"⟩,
          InfOutcome.timeout,
          HttpOutcome.response ⟨200, "application/json", "\x7b\x7d"⟩,
          none⟩).map (fun m => (m.role, m.isToolCall, m.isToolResponse))
        = [("user", false, false), ("assistant", false, false)]
      ∨ (handle_message ⟨"hi", 1, "bot", [], [],
          InfOutcome.response ⟨200, "application/json",
            "\x7b\"text\": \"hello\", \"tokens\": 7\x7d"⟩,
          InfOutcome.timeout,
          HttpOutcome.response ⟨200, "application/json", "\x7b\x7d"⟩,
          none⟩).map (fun m => (m.role, m.isToolCall, m.isToolResponse))
        = [("user", false, false), ("assistant", true, false),
           ("system", false, true), ("assistant", false, false)]) :=
  ⟨rfl, C1_message_order ⟨"hi", 1, "bot", [], [],
      InfOutcome.response ⟨200, "application/json",
        "\x7b\"text\": \"hello\", \"tokens\": 7\x7d"⟩,
      InfOutcome.timeout,
      HttpOutcome.response ⟨200, "application/json", "\x7b\x7d"⟩,
      none⟩ rfl⟩

/-- C10 counterexample: a successful inference whose `text` field is a
single space carries no `error` key and keeps the whitespace-only text —
no placeholder is substituted — and the orchestrator's strip check then
persists the empty-response notice even though the inference call
succeeded. -/
theorem C10_counterexample :
    call_modal_inference (InfOutcome.response ⟨200, "application/json",
        "\x7b\"text\": \" \", \"tokens\": 2\x7d"⟩)
      = ⟨Json.str " ", Json.num 2 0, none⟩
    ∧ handle_message ⟨"hi", 1, "bot", [], [],
          InfOutcome.response ⟨200, "application/json",
            "\x7b\"text\": \" \", \"tokens\": 2\x7d"⟩,
          InfOutcome.timeout,
          HttpOutcome.response ⟨200, "application/json", "\x7b\x7d"⟩,
          none⟩
      = [⟨"user", "hi", false, false⟩,
         ⟨"assistant", emptyResponseNotice, false, false⟩] :=
  ⟨rfl, rfl⟩

/-- Generalisation used by the C10 theorem: a result with no `error` key
has truthy text. -/
theorem inf_result_shape (outcome : InfOutcome) (res : InfResult)
    (h : call_modal_inference outcome = res)
    (herr : res.error = none) : res.text.truthy = true := by
  simp only [call_modal_inference] at h
  repeat' split at h
  all_goals subst h
  all_goals
    first
      | exact Option.noConfusion herr
      | rfl
      | assumption

/-- C10 (amended): every result of `call_modal_inference` that carries
no `error` key has a truthy (Python non-falsy) `text` value — the
placeholder is substituted only for a falsy text — but a truthy text can
still be whitespace-only, in which case the orchestrator's strip check
reaches the empty-response branch after a successful call. -/
theorem C10_success_text_truthy (outcome : InfOutcome)
    (herr : (call_modal_inference outcome).error = none) :
    (call_modal_inference outcome).text.truthy = true :=
  inf_result_shape outcome (call_modal_inference outcome) rfl herr

/-! ## Bot Lifecycle (`BotManager`, lines 2243-2400)

`running_bots` is the dict mapping bot id to the stored instance record;
the Telegram `Application` and polling task inside the record only matter
through whether their setup and teardown raise, which the environment
supplies per token / bot id.  `start_bot` (lines 2250-2328) returns
`False` without touching the map when the registry lookup is falsy or
any setup step raises; `stop_bot` (lines 2330-2377) removes the entry
even when teardown raises.  `sync_bots` (lines 2379-2400) snapshots the
running ids before the start loop, starts every active bot not in the
snapshot, then stops every snapshot id that is not active; the counters
returned here record how many `start_bot` / `stop_bot` calls the sync
performed. -/

/-- The registry fields of one bot that the lifecycle reads. -/
structure BotInfo where
  id : String
  token : String
  username : String
deriving Repr

/-- The manager's environment: whether `lookup_bot_by_token` returns a
truthy record for a token, whether the application setup for a token
completes without raising, and whether teardown of a bot id completes
without raising. -/
structure ManagerEnv where
  lookupOk : String → Bool
  startOk : String → Bool
  stopOk : String → Bool

/-- `BotManager.start_bot` (lines 2250-2328): already-running ids are
skipped; a falsy lookup or a raising setup step returns `False` with the
map untouched; otherwise the instance record is stored. -/
def start_bot (env : ManagerEnv) (st : List (String × BotInfo))
    (bot : BotInfo) : List (String × BotInfo) × Bool :=
  if bot.id ∈ st.map Prod.fst then (st, true)
  else if env.lookupOk bot.token = false then (st, false)
  else if env.startOk bot.token = false then (st, false)
  else (st ++ [(bot.id, bot)], true)

/-- `BotManager.stop_bot` (lines 2330-2377): an unknown id returns
`False`; otherwise the entry is removed — also when teardown raises
(lines 2374-2376) — and the return value reports teardown success. -/
def stop_bot (env : ManagerEnv) (st : List (String × BotInfo))
    (bot_id : String) : List (String × BotInfo) × Bool :=
  if bot_id ∈ st.map Prod.fst then
    (st.filter (fun kv => kv.1 ≠ bot_id), env.stopOk bot_id)
  else (st, false)

/-- One iteration of the start loop (lines 2388-2391): `start_bot` is
called exactly for the active bots whose id is not in the snapshot. -/
def startStep (env : ManagerEnv) (running : List String)
    (acc : List (String × BotInfo) × Nat) (bot : BotInfo) :
    List (String × BotInfo) × Nat :=
  if bot.id ∈ running then acc
  else ((start_bot env acc.1 bot).1, acc.2 + 1)

/-- One iteration of the stop loop (lines 2394-2397): `stop_bot` is
called exactly for the snapshot ids that are not active. -/
def stopStep (env : ManagerEnv) (activeIds : List String)
    (acc : List (String × BotInfo) × Nat) (bot_id : String) :
    List (String × BotInfo) × Nat :=
  if bot_id ∈ activeIds then acc
  else ((stop_bot env acc.1 bot_id).1, acc.2 + 1)

/-- `BotManager.sync_bots` (lines 2379-2400): the resulting map together
with the number of `start_bot` and of `stop_bot` calls performed. -/
def sync_bots (env : ManagerEnv) (st : List (String × BotInfo))
    (active : List BotInfo) :
    List (String × BotInfo) × Nat × Nat :=
  let running := st.map Prod.fst
  let activeIds := active.map BotInfo.id
  let s := active.foldl (startStep env running) (st, 0)
  let t := running.foldl (stopStep env activeIds) (s.1, 0)
  (t.1, s.2, t.2)

example :
    sync_bots ⟨fun _ => true, fun _ => true, fun _ => true⟩ []
      [⟨"b1", "t1", "u1"⟩]
      = ([("b1", ⟨"b1", "t1", "u1"⟩)], 1, 0) := rfl

example :
    sync_bots ⟨fun _ => true, fun _ => true, fun _ => true⟩
      [("b2", ⟨"b2", "t2", "u2"⟩)] []
      = ([], 0, 1) := rfl

/-- The start loop never removes a key from the map. -/
theorem startFold_keys_mono (env : ManagerEnv) (running : List String) :
    ∀ (l : List BotInfo) (acc : List (String × BotInfo) × Nat) (k : String),
      k ∈ acc.1.map Prod.fst →
      k ∈ (l.foldl (startStep env running) acc).1.map Prod.fst := by
  intro l
  induction l with
  | nil => exact fun acc k h => h
  | cons b t ih =>
    intro acc k h
    refine ih _ k ?_
    unfold startStep
    split
    · exact h
    · show k ∈ (start_bot env acc.1 b).1.map Prod.fst
      unfold start_bot
      split
      · exact h
      · split
        · exact h
        · split
          · exact h
          · show k ∈ (acc.1 ++ [(b.id, b)]).map Prod.fst
            simp only [List.map_append, List.mem_append]
            exact Or.inl h

/-- Every key present after the start loop was present before or is the
id of one of the processed bots. -/
theorem startFold_keys_bound (env : ManagerEnv) (running : List String) :
    ∀ (l : List BotInfo) (acc : List (String × BotInfo) × Nat) (k : String),
      k ∈ (l.foldl (startStep env running) acc).1.map Prod.fst →
      k ∈ acc.1.map Prod.fst ∨ k ∈ l.map BotInfo.id := by
  intro l
  induction l with
  | nil => exact fun acc k h => Or.inl h
  | cons b t ih =>
    intro acc k h
    rcases ih _ k h with h1 | h1
    · revert h1
      unfold startStep
      split
      · exact fun h1 => Or.inl h1
      · show k ∈ (start_bot env acc.1 b).1.map Prod.fst → _
        unfold start_bot
        split
        · exact fun h1 => Or.inl h1
        · split
          · exact fun h1 => Or.inl h1
          · split
            · exact fun h1 => Or.inl h1
            · intro h1
              rcases (by simpa using h1 :
                  k ∈ acc.1.map Prod.fst ∨ k = b.id) with h2 | h2
              · exact Or.inl h2
              · exact Or.inr (by simp [h2])
    · exact Or.inr (List.mem_cons_of_mem _ h1)

/-- The stop loop never adds a key to the map. -/
theorem stopFold_keys_mono (env : ManagerEnv) (activeIds : List String) :
    ∀ (ids : List String) (acc : List (String × BotInfo) × Nat) (k : String),
      k ∈ (ids.foldl (stopStep env activeIds) acc).1.map Prod.fst →
      k ∈ acc.1.map Prod.fst := by
  intro ids
  induction ids with
  | nil => exact fun acc k h => h
  | cons i t ih =>
    intro acc k h
    have h1 := ih _ k h
    revert h1
    unfold stopStep
    split
    · exact fun h1 => h1
    · show k ∈ (stop_bot env acc.1 i).1.map Prod.fst → _
      unfold stop_bot
      split
      · intro h1
        rcases List.mem_map.1 h1 with ⟨kv, hkv, hk1⟩
        exact List.mem_map.2 ⟨kv, (List.mem_filter.1 hkv).1, hk1⟩
      · exact fun h1 => h1

/-- A snapshot id that is not active is absent from the map after the
stop loop. -/
theorem stopFold_removes (env : ManagerEnv) (activeIds : List String) :
    ∀ (ids : List String) (acc : List (String × BotInfo) × Nat) (k : String),
      k ∈ ids → ¬ k ∈ activeIds →
      ¬ k ∈ (ids.foldl (stopStep env activeIds) acc).1.map Prod.fst := by
  intro ids
  induction ids with
  | nil => exact fun acc k h => absurd h (List.not_mem_nil k)
  | cons i t ih =>
    intro acc k hk hna
    rcases List.mem_cons.1 hk with heq | hk'
    · subst heq
      intro habs
      have h1 := stopFold_keys_mono env activeIds t _ k habs
      revert h1
      unfold stopStep
      rw [if_neg hna]
      show ¬ k ∈ (stop_bot env acc.1 k).1.map Prod.fst
      unfold stop_bot
      split
      · intro h1
        rcases List.mem_map.1 h1 with ⟨kv, hkv, hk1⟩
        have hpred := (List.mem_filter.1 hkv).2
        rw [hk1] at hpred
        simp at hpred
      · intro h1
        exact (by assumption : ¬ k ∈ acc.1.map Prod.fst) h1
    · exact ih _ k hk' hna

/-- Concrete instantiation of C10's amended theorem: a success body with
no text field yields the placeholder, which is truthy. -/
theorem C10_success_text_truthy_witness :
    call_modal_inference (InfOutcome.response ⟨200, "application/json",
        "\x7b\x7d"⟩)
      = ⟨Json.str "No response generated", Json.num 0 0, none⟩
    ∧ (call_modal_inference (InfOutcome.response ⟨200, "application/json",
        "\x7b\x7d"⟩)).text.truthy = true :=
  ⟨rfl, C10_success_text_truthy
    (InfOutcome.response ⟨200, "application/json", "\x7b\x7d"⟩) rfl⟩

/-- An active key in the map survives the stop loop. -/
theorem stopFold_keeps (env : ManagerEnv) (activeIds : List String) :
    ∀ (ids : List String) (acc : List (String × BotInfo) × Nat) (k : String),
      k ∈ acc.1.map Prod.fst → k ∈ activeIds →
      k ∈ (ids.foldl (stopStep env activeIds) acc).1.map Prod.fst := by
  intro ids
  induction ids with
  | nil => exact fun acc k h _ => h
  | cons i t ih =>
    intro acc k h ha
    refine ih _ k ?_ ha
    unfold stopStep
    split
    · exact h
    · show k ∈ (stop_bot env acc.1 i).1.map Prod.fst
      unfold stop_bot
      split
      · rcases List.mem_map.1 h with ⟨kv, hkv, hk1⟩
        refine List.mem_map.2 ⟨kv, List.mem_filter.2 ⟨hkv, ?_⟩, hk1⟩
        have hki : k ≠ i := fun heq => (by assumption : ¬ i ∈ activeIds) (heq ▸ ha)
        rw [hk1]
        simp [hki]
      · exact h

/-- An active bot whose lookup and setup succeed is in the map after the
start loop. -/
theorem startFold_good_lands (env : ManagerEnv) (running : List String)
    (b : BotInfo) (hl : env.lookupOk b.token = true)
    (hs : env.startOk b.token = true) :
    ∀ (l : List BotInfo) (acc : List (String × BotInfo) × Nat),
      b ∈ l → (b.id ∈ running → b.id ∈ acc.1.map Prod.fst) →
      b.id ∈ (l.foldl (startStep env running) acc).1.map Prod.fst := by
  intro l
  induction l with
  | nil => exact fun acc h _ => absurd h (List.not_mem_nil b)
  | cons c t ih =>
    intro acc hb hrun
    rcases List.mem_cons.1 hb with heq | hb'
    · subst heq
      rw [List.foldl_cons]
      apply startFold_keys_mono env running t (startStep env running acc b) b.id
      unfold startStep
      by_cases h1 : b.id ∈ running
      · rw [if_pos h1]
        exact hrun h1
      · rw [if_neg h1]
        show b.id ∈ (start_bot env acc.1 b).1.map Prod.fst
        unfold start_bot
        by_cases h2 : b.id ∈ acc.1.map Prod.fst
        · rw [if_pos h2]
          exact h2
        · rw [if_neg h2, hl, if_neg (by decide : ¬ (true = false)), hs,
            if_neg (by decide : ¬ (true = false))]
          show b.id ∈ (acc.1 ++ [(b.id, b)]).map Prod.fst
          simp
    · refine ih _ hb' (fun h1 => ?_)
      exact startFold_keys_mono env running [c] acc b.id (hrun h1)

/-- Every key of the map after a sync is the id of an active bot. -/
theorem sync_keys_active (env : ManagerEnv) (st0 : List (String × BotInfo))
    (active : List BotInfo) :
    ∀ k ∈ (sync_bots env st0 active).1.map Prod.fst,
      k ∈ active.map BotInfo.id := by
  intro k hk
  simp only [sync_bots] at hk
  by_cases ha : k ∈ active.map BotInfo.id
  · exact ha
  · exfalso
    have h1 := stopFold_keys_mono env (active.map BotInfo.id)
      (st0.map Prod.fst) _ k hk
    rcases startFold_keys_bound env (st0.map Prod.fst) active _ k h1 with h2 | h2
    · exact stopFold_removes env (active.map BotInfo.id)
        (st0.map Prod.fst) _ k h2 ha hk
    · exact ha h2

/-- An active bot whose lookup and setup succeed is in the map after a
sync. -/
theorem sync_good_runs (env : ManagerEnv) (st0 : List (String × BotInfo))
    (active : List BotInfo) :
    ∀ b ∈ active, env.lookupOk b.token = true → env.startOk b.token = true →
      b.id ∈ (sync_bots env st0 active).1.map Prod.fst := by
  intro b hb hl hs
  simp only [sync_bots]
  refine stopFold_keeps env (active.map BotInfo.id) (st0.map Prod.fst)
    _ b.id ?_ (List.mem_map_of_mem _ hb)
  exact startFold_good_lands env (st0.map Prod.fst) b hl hs active
    (st0, 0) hb (fun h => h)

/-- The start loop of a sync whose non-running active bots all fail to
start leaves the map unchanged and counts one call per such bot. -/
theorem startFold_noop (env : ManagerEnv) (st1 : List (String × BotInfo)) :
    ∀ (l : List BotInfo) (n : Nat),
      (∀ b ∈ l, ¬ b.id ∈ st1.map Prod.fst →
        env.lookupOk b.token = false ∨ env.startOk b.token = false) →
      l.foldl (startStep env (st1.map Prod.fst)) (st1, n)
        = (st1, n + (l.filter (fun b => ¬ b.id ∈ st1.map Prod.fst)).length) := by
  intro l
  induction l with
  | nil => intro n _; simp
  | cons b t ih =>
    intro n h
    by_cases hmem : b.id ∈ st1.map Prod.fst
    · have hstep : startStep env (st1.map Prod.fst) (st1, n) b = (st1, n) := by
        unfold startStep
        rw [if_pos hmem]
      rw [List.foldl_cons, hstep,
        ih n (fun c hc => h c (List.mem_cons_of_mem _ hc))]
      simp [List.filter, hmem]
    · have hfail := h b (List.mem_cons_self b t) hmem
      have hsb : (start_bot env st1 b).1 = st1 := by
        unfold start_bot
        rw [if_neg hmem]
        cases hlv : env.lookupOk b.token with
        | false => rw [if_pos rfl]
        | true =>
          rw [if_neg (by simp)]
          rcases hfail with hf | hf
          · rw [hlv] at hf
            exact absurd hf (by decide)
          · rw [hf, if_pos rfl]
      have hstep : startStep env (st1.map Prod.fst) (st1, n) b = (st1, n + 1) := by
        unfold startStep
        rw [if_neg hmem, hsb]
      rw [List.foldl_cons, hstep,
        ih (n + 1) (fun c hc => h c (List.mem_cons_of_mem _ hc))]
      have hcount :
          ((b :: t).filter (fun c => ¬ c.id ∈ st1.map Prod.fst)).length
            = (t.filter (fun c => ¬ c.id ∈ st1.map Prod.fst)).length + 1 := by
        simp [List.filter, hmem]
      rw [hcount]
      have : n + 1 + (t.filter (fun c => ¬ c.id ∈ st1.map Prod.fst)).length
          = n + ((t.filter (fun c => ¬ c.id ∈ st1.map Prod.fst)).length + 1) := by
        omega
      rw [this]

/-- The stop loop of a sync whose snapshot ids are all active performs
no call and leaves the state unchanged. -/
theorem stopFold_noop (env : ManagerEnv) (activeIds : List String) :
    ∀ (ids : List String) (acc : List (String × BotInfo) × Nat),
      (∀ k ∈ ids, k ∈ activeIds) →
      ids.foldl (stopStep env activeIds) acc = acc := by
  intro ids
  induction ids with
  | nil => exact fun acc _ => rfl
  | cons i t ih =>
    intro acc h
    rw [List.foldl_cons]
    have hstep : stopStep env activeIds acc i = acc := by
      unfold stopStep
      rw [if_pos (h i (List.mem_cons_self i t))]
    rw [hstep]
    exact ih acc (fun k hk => h k (List.mem_cons_of_mem _ hk))

/-- C9 counterexample: with one active bot whose registry lookup fails,
the first sync performs one (failing) start; the second sync, with the
registry unchanged, again performs one start call — not zero — although
the running map is unchanged. -/
theorem C9_counterexample :
    sync_bots ⟨fun _ => false, fun _ => true, fun _ => true⟩ []
        [⟨"b1", "tok", "u"⟩]
      = ([], 1, 0)
    ∧ (sync_bots ⟨fun _ => false, fun _ => true, fun _ => true⟩
        (sync_bots ⟨fun _ => false, fun _ => true, fun _ => true⟩ []
          [⟨"b1", "tok", "u"⟩]).1
        [⟨"b1", "tok", "u"⟩]).2.1 = 1 :=
  ⟨rfl, rfl⟩

/-- C9 (amended): a second sync with the registry unchanged leaves the
running map unchanged and performs zero stop calls, but it performs one
start call for every active bot that is not running (each fails again,
as it did in the first sync); it is a full no-op exactly when every
active bot is running after the first sync. -/
theorem C9_sync_idempotent (env : ManagerEnv)
    (st0 : List (String × BotInfo)) (active : List BotInfo) :
    sync_bots env (sync_bots env st0 active).1 active
      = ((sync_bots env st0 active).1,
         (active.filter
           (fun b => ¬ b.id ∈ (sync_bots env st0 active).1.map Prod.fst)).length,
         0) := by
  have hA : ∀ k ∈ (sync_bots env st0 active).1.map Prod.fst,
      k ∈ active.map BotInfo.id := sync_keys_active env st0 active
  have hB : ∀ b ∈ active, ¬ b.id ∈ (sync_bots env st0 active).1.map Prod.fst →
      env.lookupOk b.token = false ∨ env.startOk b.token = false := by
    intro b hb hnot
    cases hlv : env.lookupOk b.token with
    | false => exact Or.inl rfl
    | true =>
      cases hsv : env.startOk b.token with
      | false => exact Or.inr rfl
      | true => exact absurd (sync_good_runs env st0 active b hb hlv hsv) hnot
  generalize hg : (sync_bots env st0 active).1 = st1
  rw [hg] at hA hB
  show sync_bots env st1 active = _
  simp only [sync_bots]
  rw [startFold_noop env st1 active 0 hB]
  rw [stopFold_noop env (active.map BotInfo.id) (st1.map Prod.fst) (st1, 0) hA]
  simp

end TelegramBot
